import Mathlib

/-!
# linkly-id/auth: hook dispatch and the identity resolution controller

A shallow embedding of

* `internal/api/hooks.go` (`checkTX`, `triggerBeforeUserCreated`,
  `triggerBeforeUserCreatedExternal`),
* `internal/hooks/hookspgfunc/hookspgfunc.go` (`New`, `WithTimeout`,
  `Dispatcher.Dispatch`, `Dispatcher.runPostgresHook` and its closure
  `invokeHookFunc`),
* the `GetUserData` functions of `internal/api/provider/keycloak.go`, `zoom.go`
  and `twitch.go`, `chooseHost` of `provider.go`, and `SendSms` of
  `internal/api/sms_provider/vonage.go`,
* the middleware of `internal/observability/request-logger.go` (`AddRequestID`,
  `NewStructuredLogger`, `NewLogEntry`, `Write`, `GetLogEntryFromContext`,
  `SetLogEntryWithContext`), and
* the validation pipeline of the wallet sign-in verifier, whose code is not
  among the sources and which is modelled from the specification and checked
  against `internal/api/web3_test.go`.

Go functions that return `error` return a `Ret` here, side effects on
collaborators are recorded in an explicit trace of `Event`s, and the
collaborators whose code lives in other packages (the database driver, the JSON
codec, the hook manager, the linking engine) are parameters of the model.
-/

set_option linter.dupNamespace false

namespace Auth

/-! ## Errors -/

/-- Go `error` values, recorded by the way they are built.  `plain` is any error
that is not an `*apierrors.HTTPError` (driver, codec and `errors.New` values),
`wrap` is an error exposing `Unwrap`, and the two remaining constructors are the
results of `apierrors.NewInternalServerError` and
`apierrors.NewUnprocessableEntityError`, with the cause attached by
`WithInternalError` when there is one. -/
inductive Err where
  | plain (msg : String)
  | wrap (msg : String) (inner : Err)
  | internalServerError (msg : String) (internalError : Option Err)
  | unprocessableEntity (errorCode : String) (msg : String) (internalError : Option Err)

/-- The constant `apierrors.ErrorCodeSignupDisabled`, kept symbolic. -/
def ErrorCodeSignupDisabled : String := "ErrorCodeSignupDisabled"

/-- Go `apierrors.NewInternalServerError(msg)`. -/
def NewInternalServerError (msg : String) : Err := .internalServerError msg none

/-- Go `apierrors.NewUnprocessableEntityError(code, msg)`. -/
def NewUnprocessableEntityError (errorCode msg : String) : Err :=
  .unprocessableEntity errorCode msg none

/-- Go `(*HTTPError).WithInternalError(err)`: attaches the cause to an HTTP error.
The method only exists on `*HTTPError`, so the other constructors are left
alone. -/
def Err.WithInternalError : Err → Err → Err
  | .internalServerError msg _, cause => .internalServerError msg (some cause)
  | .unprocessableEntity c msg _, cause => .unprocessableEntity c msg (some cause)
  | e, _ => e

/-- Go `errors.As(err, &e)` for `e : *apierrors.HTTPError`: the first HTTP error
on the `Unwrap` chain of `err`, if there is one. -/
def errorsAsHTTPError : Err → Option Err
  | .plain _ => none
  | .wrap _ inner => errorsAsHTTPError inner
  | .internalServerError msg ie => some (.internalServerError msg ie)
  | .unprocessableEntity c msg ie => some (.unprocessableEntity c msg ie)

/-- What a Go function with result type `error` does: it returns `nil`, returns
a non-nil error, or faults (a run-time panic such as a nil dereference). -/
inductive Ret where
  | nil
  | err (e : Err)
  | panic

/-! ## Storage -/

/-- A `*storage.Connection`: a handle on the database, with `TX` non-nil exactly
when the handle is inside an open transaction. -/
structure Connection where
  handle : Nat
  TX : Option Nat
deriving DecidableEq, Repr

/-- Raw bytes (`[]byte`), held as text. -/
abbrev Bytes := String

/-- A decoded JSON value as `encoding/json` stores it in an `interface{}`: nil, a
`bool`, a number (kept as its literal text), a `string`, or an array or object
(kept as raw text). -/
inductive JSONValue where
  | null
  | bool (b : Bool)
  | number (text : String)
  | string (s : String)
  | composite (raw : String)
deriving DecidableEq, Repr

/-- A Go `map[string]V`, held as the list of the assignments `m[k] = v` made to
it, oldest first; the value of a key is the one assigned last. -/
structure GoMap (V : Type) where
  entries : List (String × V)
deriving DecidableEq, Repr

/-- The empty map (`make(map[string]V)`, or a nil map when read). -/
def GoMap.empty {V : Type} : GoMap V := { entries := [] }

/-- The lookup `v, ok := m[k]`. -/
def GoMap.get {V : Type} (m : GoMap V) (k : String) : Option V :=
  m.entries.foldl (fun acc e => if e.1 = k then some e.2 else acc) none

/-- The assignment `m[k] = v`. -/
def GoMap.set {V : Type} (m : GoMap V) (k : String) (v : V) : GoMap V :=
  { entries := m.entries ++ [(k, v)] }

/-- Go `strings.HasPrefix(s, prefix)`. -/
def HasPrefix (s pre : String) : Bool := pre.data.isPrefixOf s.data

/-- Go `provider.Email`. -/
structure Email where
  Email : String
  Verified : Bool
  Primary : Bool
deriving DecidableEq, Repr

/-- Go `provider.Claims`.  `Iat` and `Exp` are `float64` in the source and are kept
as integers. -/
structure Claims where
  Issuer : String := ""
  Subject : String := ""
  Aud : String := ""
  Iat : Int := 0
  Exp : Int := 0
  Name : String := ""
  FamilyName : String := ""
  GivenName : String := ""
  MiddleName : String := ""
  NickName : String := ""
  PreferredUsername : String := ""
  Profile : String := ""
  Picture : String := ""
  Website : String := ""
  Gender : String := ""
  Birthdate : String := ""
  ZoneInfo : String := ""
  Locale : String := ""
  UpdatedAt : String := ""
  Email : String := ""
  EmailVerified : Bool := false
  Phone : String := ""
  PhoneVerified : Bool := false
  CustomClaims : GoMap JSONValue := GoMap.empty
  FullName : String := ""
  AvatarURL : String := ""
  Slug : String := ""
  ProviderId : String := ""
  UserNameKey : String := ""
deriving DecidableEq, Repr

/-- Go `provider.UserProvidedData`; `Metadata` is a pointer and may be nil. -/
structure UserProvidedData where
  Emails : List Email
  Metadata : Option Claims
deriving DecidableEq, Repr

/-- The `map[string]interface{}` produced by `structs.Map`. -/
abbrev IdentityData := List (String × String)

/-- Modelled from the spec: `models.AccountLinkingDecision` is declared outside
the sources at hand.  The controller names `CreateAccount` only; the other two
decisions are the ones the specification lists (link the identity onto an
existing user, or sign in to an existing account). -/
inductive AccountLinkingDecision where
  | AccountExists
  | CreateAccount
  | LinkIdentity
deriving DecidableEq, Repr

/-- Go `models.AccountLinkingResult`, with the fields the controller reads. -/
structure AccountLinkingResult where
  Decision : AccountLinkingDecision
  CandidateEmail : Email
  LinkingDomain : String
deriving DecidableEq, Repr

/-- The value of `var decision` before the linking call assigns it; the
controller only reads `decision` on the path on which it was assigned. -/
def AccountLinkingResult.zero : AccountLinkingResult :=
  { Decision := .AccountExists, CandidateEmail := ⟨"", false, false⟩, LinkingDomain := "" }

/-- Go `api.SignupParams`, with the fields set by the controller. -/
structure SignupParams where
  Provider : String
  Email : String
  Aud : String
  Data : Option IdentityData
deriving DecidableEq, Repr

/-- Go `models.User`, with the fields this development refers to. -/
structure User where
  Email : String
  Aud : String
  Provider : String
  UserMetaData : Option IdentityData
  IsSSOUser : Bool
deriving DecidableEq, Repr

/-- The incoming `*http.Request`, as far as the controller looks at it. -/
structure Request where
  ident : Nat
deriving DecidableEq, Repr

/-- Go `v0hooks.BeforeUserCreatedInput` as built by
`v0hooks.NewBeforeUserCreatedInput(r, user)`. -/
structure BeforeUserCreatedInput where
  request : Request
  user : User
deriving DecidableEq, Repr

/-- Go `v0hooks.NewBeforeUserCreatedInput`. -/
def NewBeforeUserCreatedInput (r : Request) (user : User) : BeforeUserCreatedInput :=
  { request := r, user := user }

/-- The part of `conf.GlobalConfiguration` the controller reads. -/
structure GlobalConfiguration where
  DisableSignup : Bool
deriving DecidableEq, Repr

/-! ## Traces -/

/-- The observable steps of a run, in the order in which they happen. -/
inductive Event where
  /-- A call of `db.Transaction(fn)` on the handle `db`: a transaction is opened. -/
  | transaction (db : Connection)
  | commit (tx : Connection)
  | rollback (tx : Connection)
  /-- The statement `tx.RawQuery(q, args...)` was executed on `tx`; `ok` tells
  whether it succeeded. -/
  | rawQuery (tx : Connection) (q : String) (args : List Bytes) (ok : Bool)
  /-- A call of `hookserrors.Check(response)`. -/
  | check (response : Option Bytes)
  /-- A call of `json.Unmarshal(data, res)`. -/
  | unmarshal (data : Bytes)
  /-- A call of `models.DetermineAccountLinking` on `tx`. -/
  | determineAccountLinking (tx : Connection) (emails : List Email)
      (aud providerType subject : String)
  /-- The flag `config.DisableSignup` was evaluated. -/
  | disableSignup (value : Bool)
  /-- A call of `params.ToUserModel(isSSOUser)`. -/
  | toUserModel (params : SignupParams) (isSSOUser : Bool)
  /-- A call of `hooksMgr.InvokeHook(conn, r, req, res)`. -/
  | invokeHook (conn : Connection) (req : BeforeUserCreatedInput)
deriving DecidableEq, Repr

/-- The database as the code sees it: whether a transaction can be opened on a
handle and which connection stands for it, how a committed transaction ends, and
what a raw statement executed on a connection answers (an error, or the first
row, `none` standing for no bytes). -/
structure Storage where
  beginTx : Connection → Except Err Connection
  commitTx : Connection → Option Err
  rawQuery : Connection → String → List Bytes → Except Err (Option Bytes)

/-- The result of running a piece of code that returns an `error`: the value
returned, the variables it assigned (`state`) and the steps it took. -/
structure Run (σ : Type) where
  ret : Ret
  state : σ
  trace : List Event

/-- Modelled from the spec: `storage.Connection.Transaction` is not part of the
sources at hand.  Following the specification ("opens its own transaction for
the single call"), the call opens a transaction on `db`, runs `fn` once on the
transaction's connection, rolls back when `fn` does not return nil and commits
otherwise; variables captured by `fn` keep what `fn` assigned. -/
def Connection.Transaction {σ : Type} (st : Storage) (db : Connection) (init : σ)
    (fn : Connection → Run σ) : Run σ :=
  match st.beginTx db with
  | .error e => { ret := .err e, state := init, trace := [.transaction db] }
  | .ok tx =>
    let r := fn tx
    match r.ret with
    | .nil =>
      match st.commitTx tx with
      | none => { ret := .nil, state := r.state, trace := .transaction db :: r.trace ++ [.commit tx] }
      | some e => { ret := .err e, state := r.state, trace := .transaction db :: r.trace ++ [.commit tx] }
    | .err e => { ret := .err e, state := r.state, trace := .transaction db :: r.trace ++ [.rollback tx] }
    | .panic => { ret := .panic, state := r.state, trace := .transaction db :: r.trace }

/-! ## `internal/api/hooks.go` -/

/-- The `*API` value and the collaborators it calls: the hook manager
(`Enabled`, `InvokeHook`), `requestAud`, the configuration, the database handle
`a.db`, `models.DetermineAccountLinking`, `structs.Map` and
`SignupParams.ToUserModel`. -/
structure API where
  storage : Storage
  db : Connection
  config : GlobalConfiguration
  hooksEnabled : Bool
  InvokeHook : Connection → Request → BeforeUserCreatedInput → Ret
  requestAud : Request → String
  DetermineAccountLinking : Connection → GlobalConfiguration → List Email → String → String →
    String → Except Err AccountLinkingResult
  structsMap : Claims → IdentityData
  ToUserModel : SignupParams → Bool → Except Err User

/-- Go `checkTX`. -/
def checkTX (conn : Connection) : Ret :=
  if conn.TX ≠ none then
    .err (NewInternalServerError "unable to trigger hooks during transaction")
  else
    .nil

/-- Go `(*API).triggerBeforeUserCreated`. -/
def API.triggerBeforeUserCreated (a : API) (r : Request) (conn : Connection) (user : User) :
    Run Unit :=
  if !a.hooksEnabled then
    { ret := .nil, state := (), trace := [] }
  else
    match checkTX conn with
    | .err e => { ret := .err e, state := (), trace := [] }
    | .panic => { ret := .panic, state := (), trace := [] }
    | .nil =>
      let req := NewBeforeUserCreatedInput r user
      { ret := a.InvokeHook conn r req, state := (), trace := [.invokeHook conn req] }

/-- The closure handed to `a.db.Transaction` in
`triggerBeforeUserCreatedExternal`; its state is the captured `decision`.
Reading `userData.Metadata.Subject` faults when `Metadata` is nil. -/
def API.linkingFn (a : API) (userData : UserProvidedData) (aud providerType : String)
    (tx : Connection) : Run AccountLinkingResult :=
  match userData.Metadata with
  | none => { ret := .panic, state := .zero, trace := [] }
  | some md =>
    let ev := Event.determineAccountLinking tx userData.Emails aud providerType md.Subject
    match a.DetermineAccountLinking tx a.config userData.Emails aud providerType md.Subject with
    | .error e => { ret := .err e, state := .zero, trace := [ev] }
    | .ok d => { ret := .nil, state := d, trace := [ev] }

/-- The linking step of `triggerBeforeUserCreatedExternal`:
`a.db.Transaction(func(tx) { decision, err = models.DetermineAccountLinking(...) })`. -/
def API.linkingTransaction (a : API) (userData : UserProvidedData) (aud providerType : String) :
    Run AccountLinkingResult :=
  Connection.Transaction a.storage a.db .zero (a.linkingFn userData aud providerType)

/-- Go `(*API).triggerBeforeUserCreatedExternal`. -/
def API.triggerBeforeUserCreatedExternal (a : API) (r : Request) (conn : Connection)
    (userData : UserProvidedData) (providerType : String) : Run Unit :=
  if !a.hooksEnabled then
    { ret := .nil, state := (), trace := [] }
  else
    match checkTX conn with
    | .err e => { ret := .err e, state := (), trace := [] }
    | .panic => { ret := .panic, state := (), trace := [] }
    | .nil =>
      let aud := a.requestAud r
      let config := a.config
      let identityData : Option IdentityData := userData.Metadata.map a.structsMap
      let l := a.linkingTransaction userData aud providerType
      match l.ret with
      | .err e => { ret := .err e, state := (), trace := l.trace }
      | .panic => { ret := .panic, state := (), trace := l.trace }
      | .nil =>
        let decision := l.state
        if decision.Decision ≠ .CreateAccount then
          { ret := .nil, state := (), trace := l.trace }
        else if config.DisableSignup then
          { ret := .err (NewUnprocessableEntityError ErrorCodeSignupDisabled
              "Signups not allowed for this instance"),
            state := (), trace := l.trace ++ [.disableSignup true] }
        else
          let params : SignupParams :=
            { Provider := providerType, Email := decision.CandidateEmail.Email, Aud := aud,
              Data := identityData }
          let isSSOUser := HasPrefix decision.LinkingDomain "sso:"
          let pre := l.trace ++ [.disableSignup false, .toUserModel params isSSOUser]
          match a.ToUserModel params isSSOUser with
          | .error e => { ret := .err e, state := (), trace := pre }
          | .ok user =>
            let t := a.triggerBeforeUserCreated r conn user
            { ret := t.ret, state := (), trace := pre ++ t.trace }

/-! ## `internal/hooks/hookspgfunc/hookspgfunc.go` -/

/-- Go `hookspgfunc.Dispatcher`. -/
structure Dispatcher where
  db : Connection
  hookTimeoutMS : Int
deriving DecidableEq, Repr

/-- The part of `conf.ExtensibilityPointConfiguration` the dispatcher reads. -/
structure ExtensibilityPointConfiguration where
  HookName : String
deriving DecidableEq, Repr

/-- The codec the dispatcher calls: `json.Marshal` on the request,
`json.Unmarshal(data, res)` (which may write to `res` even when it fails) and
`hookserrors.Check`. -/
structure Codec (Req Res : Type) where
  Marshal : Req → Except Err Bytes
  Unmarshal : Bytes → Res → Res × Option Err
  Check : Option Bytes → Option Err

/-- The statement `q1` of `invokeHookFunc`:
`fmt.Sprintf("set local statement_timeout TO '%d';", o.hookTimeoutMS)`. -/
def Dispatcher.q1 (o : Dispatcher) : String :=
  "set local statement_timeout TO '" ++ toString o.hookTimeoutMS ++ "';"

/-- The statement `q2` of `invokeHookFunc`:
`fmt.Sprintf("select %s(?);", hookConfig.HookName)`. -/
def q2 (hookConfig : ExtensibilityPointConfiguration) : String :=
  "select " ++ hookConfig.HookName ++ "(?);"

/-- The statement `q3` of `invokeHookFunc`. -/
def q3 : String := "set local statement_timeout TO default;"

/-- The closure `invokeHookFunc` of `runPostgresHook`; its state is the captured
`response`. -/
def Dispatcher.invokeHookFunc (st : Storage) (o : Dispatcher)
    (hookConfig : ExtensibilityPointConfiguration) (request : Bytes) (tx : Connection) :
    Run (Option Bytes) :=
  match st.rawQuery tx o.q1 [] with
  | .error terr => { ret := .err terr, state := none, trace := [.rawQuery tx o.q1 [] false] }
  | .ok _ =>
    match st.rawQuery tx (q2 hookConfig) [request] with
    | .error terr =>
      { ret := .err terr, state := none,
        trace := [.rawQuery tx o.q1 [] true, .rawQuery tx (q2 hookConfig) [request] false] }
    | .ok response =>
      match st.rawQuery tx q3 [] with
      | .error terr =>
        { ret := .err terr, state := response,
          trace := [.rawQuery tx o.q1 [] true, .rawQuery tx (q2 hookConfig) [request] true,
            .rawQuery tx q3 [] false] }
      | .ok _ =>
        { ret := .nil, state := response,
          trace := [.rawQuery tx o.q1 [] true, .rawQuery tx (q2 hookConfig) [request] true,
            .rawQuery tx q3 [] true] }

/-- The branch `if tx != nil { invokeHookFunc(tx) } else { db.Transaction(invokeHookFunc) }`
of `runPostgresHook`, where `db` is `o.db.WithContext(ctx)` and `response` starts
out nil. -/
def Dispatcher.callInvokeHookFunc (st : Storage) (o : Dispatcher)
    (hookConfig : ExtensibilityPointConfiguration) (request : Bytes) (tx : Option Connection) :
    Run (Option Bytes) :=
  match tx with
  | some tx => o.invokeHookFunc st hookConfig request tx
  | none => Connection.Transaction st o.db none (o.invokeHookFunc st hookConfig request)

/-- Go `(*Dispatcher).runPostgresHook`; the state is the `[]byte` it returns
(nil on every error path). -/
def Dispatcher.runPostgresHook {Req Res : Type} (st : Storage) (cd : Codec Req Res)
    (o : Dispatcher) (hookConfig : ExtensibilityPointConfiguration) (tx : Option Connection)
    (input : Req) : Run (Option Bytes) :=
  match cd.Marshal input with
  | .error err =>
    { ret := .err ((NewInternalServerError "Error marshaling JSON input.").WithInternalError err),
      state := none, trace := [] }
  | .ok request =>
    let inv := o.callInvokeHookFunc st hookConfig request tx
    match inv.ret with
    | .err e => { ret := .err e, state := none, trace := inv.trace }
    | .panic => { ret := .panic, state := none, trace := inv.trace }
    | .nil =>
      match cd.Check inv.state with
      | some e => { ret := .err e, state := none, trace := inv.trace ++ [.check inv.state] }
      | none => { ret := .nil, state := inv.state, trace := inv.trace ++ [.check inv.state] }

/-- Go `(*Dispatcher).Dispatch`; the state is the caller's `res` after the call. -/
def Dispatcher.Dispatch {Req Res : Type} (st : Storage) (cd : Codec Req Res) (o : Dispatcher)
    (cfg : ExtensibilityPointConfiguration) (tx : Option Connection) (req : Req) (res : Res) :
    Run Res :=
  let p := o.runPostgresHook st cd cfg tx req
  match p.ret with
  | .err e => { ret := .err e, state := res, trace := p.trace }
  | .panic => { ret := .panic, state := res, trace := p.trace }
  | .nil =>
    match p.state with
    | none => { ret := .nil, state := res, trace := p.trace }
    | some data =>
      match cd.Unmarshal data res with
      | (res', none) => { ret := .nil, state := res', trace := p.trace ++ [.unmarshal data] }
      | (res', some err) =>
        match errorsAsHTTPError err with
        | some e => { ret := .err e, state := res', trace := p.trace ++ [.unmarshal data] }
        | none =>
          { ret := .err ((NewInternalServerError
              "Error unmarshaling JSON output.").WithInternalError err),
            state := res', trace := p.trace ++ [.unmarshal data] }

/-! ### Construction of the dispatcher -/

/-- The constant `defaultTimeout = time.Second * 2`, a `time.Duration` in
nanoseconds. -/
def defaultTimeout : Int := 1000000000 * 2

/-- Go `hookspgfunc.Option`: something that can be applied to a dispatcher
(`optionFunc` is the only implementation). -/
abbrev DispatcherOption := Dispatcher → Dispatcher

/-- Go `WithTimeout(d)`: `o.hookTimeoutMS = int(d / 1000000)`, Go's integer
division, which truncates toward zero. -/
def WithTimeout (d : Int) : DispatcherOption :=
  fun o => { o with hookTimeoutMS := d.tdiv 1000000 }

/-- Go `New(db, opts...)`: the options are applied in order to a dispatcher that
starts with the default timeout. -/
def New (db : Connection) (opts : List DispatcherOption) : Dispatcher :=
  opts.foldl (fun dr o => o dr) { db := db, hookTimeoutMS := defaultTimeout.tdiv 1000000 }

/-! ## HTTP status of the errors -/

/-- Modelled from the spec: the HTTP-equivalent status of an error.  The package
`apierrors` is outside the sources at hand, so no code gives the status its
constructors set; section 6 of the specification gives it by kind of failure:
400 for any policy or validation rejection and 500 for internal and storage
failures.  The policy rejections of the sources are built by
`NewUnprocessableEntityError` (`hooks.go`, the signup-disabled error) and the
internal failures by `NewInternalServerError`.  Errors that are not an
`HTTPError` have no status of their own. -/
def Err.HTTPStatus : Err → Option Nat
  | .internalServerError _ _ => some 500
  | .unprocessableEntity _ _ _ => some 400
  | .plain _ => none
  | .wrap _ _ => none

/-! ## `internal/api/provider/keycloak.go` -/

/-- Go `provider.keycloakUser`. -/
structure keycloakUser where
  Name : String := ""
  Sub : String := ""
  Email : String := ""
  EmailVerified : Bool := false
  RawClaims : GoMap JSONValue := GoMap.empty
deriving DecidableEq, Repr

/-- Go `(*keycloakUser).UnmarshalJSON`; `decoded` is what
`json.Unmarshal(data, &u.RawClaims)` makes of `data`. -/
def keycloakUser.UnmarshalJSON (u : keycloakUser) (decoded : Except Err (GoMap JSONValue)) :
    Except Err keycloakUser :=
  match decoded with
  | .error err => .error err
  | .ok raw =>
    let u := { u with RawClaims := raw }
    let u := match u.RawClaims.get "name" with
      | some (.string v) => { u with Name := v }
      | _ => u
    let u := match u.RawClaims.get "sub" with
      | some (.string v) => { u with Sub := v }
      | _ => u
    let u := match u.RawClaims.get "email" with
      | some (.string v) => { u with Email := v }
      | _ => u
    let u := match u.RawClaims.get "email_verified" with
      | some (.bool v) => { u with EmailVerified := v }
      | _ => u
    .ok u

/-- The map `standardClaims` of `keycloakProvider.GetUserData`. -/
def standardClaims : GoMap Bool :=
  { entries := [("name", true), ("sub", true), ("email", true), ("email_verified", true)] }

/-- The loop `for k, v := range u.RawClaims` of `keycloakProvider.GetUserData`,
which fills `customClaims`. -/
def keycloakCustomClaims (rawClaims : GoMap JSONValue) : GoMap JSONValue :=
  rawClaims.entries.foldl
    (fun customClaims e =>
      if !((standardClaims.get e.1).getD false) then customClaims.set e.1 e.2 else customClaims)
    GoMap.empty

/-- Go `keycloakProvider.GetUserData`; `host` is `g.Host` and `response` is what
`makeRequest` obtained: an error, or the JSON object handed to
`keycloakUser.UnmarshalJSON`. -/
def keycloakProvider.GetUserData (host : String) (response : Except Err (GoMap JSONValue)) :
    Except Err UserProvidedData :=
  match keycloakUser.UnmarshalJSON {} response with
  | .error err => .error err
  | .ok u =>
    let customClaims := keycloakCustomClaims u.RawClaims
    let emails : List Email :=
      if u.Email ≠ "" then [{ Email := u.Email, Verified := u.EmailVerified, Primary := true }]
      else []
    .ok { Emails := emails
          Metadata := some { Issuer := host, Subject := u.Sub, Name := u.Name, Email := u.Email,
                             EmailVerified := u.EmailVerified, CustomClaims := customClaims,
                             FullName := u.Name, ProviderId := u.Sub } }

/-! ## `internal/api/provider/zoom.go` -/

/-- Go `provider.zoomUser`. -/
structure zoomUser where
  ID : String := ""
  FirstName : String := ""
  LastName : String := ""
  Email : String := ""
  EmailVerified : Int := 0
  LoginType : String := ""
  AvatarURL : String := ""
deriving DecidableEq, Repr

/-- Go `unicode.IsSpace`: the code points with Unicode's White Space property,
U+0009 to U+000D, U+0020, U+0085, U+00A0, U+1680, U+2000 to U+200A, U+2028,
U+2029, U+202F, U+205F and U+3000. -/
def IsSpace (r : Char) : Bool :=
  (0x09 ≤ r.toNat && r.toNat ≤ 0x0D) || r.toNat == 0x20 || r.toNat == 0x85 ||
  r.toNat == 0xA0 || r.toNat == 0x1680 || (0x2000 ≤ r.toNat && r.toNat ≤ 0x200A) ||
  r.toNat == 0x2028 || r.toNat == 0x2029 || r.toNat == 0x202F || r.toNat == 0x205F ||
  r.toNat == 0x3000

/-- Go `strings.TrimSpace`: the string with all leading and trailing white
space, as `unicode.IsSpace` defines it, removed. -/
def TrimSpace (s : String) : String :=
  String.mk ((s.data.dropWhile IsSpace).reverse.dropWhile IsSpace).reverse

/-- Go `zoomProvider.GetUserData`; `apiPath` is `g.APIPath` and `response` is
what `makeRequest` obtained. -/
def zoomProvider.GetUserData (apiPath : String) (response : Except Err zoomUser) :
    Except Err UserProvidedData :=
  match response with
  | .error err => .error err
  | .ok u =>
    let emails : List Email :=
      if u.Email ≠ "" then
        let email : Email := { Email := u.Email, Verified := false, Primary := true }
        let email : Email :=
          if u.LoginType ≠ "100" ∨ u.EmailVerified ≠ 0 then { email with Verified := true }
          else email
        [email]
      else []
    .ok { Emails := emails
          Metadata := some { Issuer := apiPath, Subject := u.ID,
                             Name := TrimSpace (u.FirstName ++ " " ++ u.LastName),
                             Picture := u.AvatarURL, AvatarURL := u.AvatarURL,
                             FullName := TrimSpace (u.FirstName ++ " " ++ u.LastName),
                             ProviderId := u.ID } }

/-! ## `internal/api/provider/twitch.go` -/

/-- One element of `twitchUsers.Data`; `CreatedAt` is a `time.Time`, kept as a
number, and the field `Type` is spelled `Type_`. -/
structure twitchUser where
  ID : String := ""
  Login : String := ""
  DisplayName : String := ""
  Type_ : String := ""
  BroadcasterType : String := ""
  Description : String := ""
  ProfileImageURL : String := ""
  OfflineImageURL : String := ""
  ViewCount : Int := 0
  Email : String := ""
  CreatedAt : Int := 0
deriving DecidableEq, Repr

/-- Go `provider.twitchUsers`. -/
structure twitchUsers where
  Data : List twitchUser
deriving DecidableEq, Repr

/-- The HTTP exchange of `twitchProvider.GetUserData`: the status code of the
response and what `io.ReadAll` followed by `json.Unmarshal` makes of its body. -/
structure twitchResponse where
  StatusCode : Int
  body : Except Err twitchUsers

/-- Go `twitchProvider.GetUserData`; `apiHost` is `t.APIHost` and `exchange` is
the outcome of building and sending the request. -/
def twitchProvider.GetUserData (apiHost : String) (exchange : Except Err twitchResponse) :
    Except Err UserProvidedData :=
  match exchange with
  | .error err => .error err
  | .ok resp =>
    if resp.StatusCode < 200 ∨ resp.StatusCode ≥ 300 then
      .error (.plain ("a " ++ toString resp.StatusCode ++
        " error occurred with retrieving user from twitch"))
    else
      match resp.body with
      | .error err => .error err
      | .ok u =>
        match u.Data with
        | [] => .error (.plain "unable to find user with twitch provider")
        | user :: _ =>
          let emails : List Email :=
            if user.Email ≠ "" then [{ Email := user.Email, Verified := true, Primary := true }]
            else []
          .ok { Emails := emails
                Metadata := some
                  { Issuer := apiHost, Subject := user.ID, Picture := user.ProfileImageURL,
                    Name := user.Login, NickName := user.DisplayName,
                    CustomClaims :=
                      { entries :=
                          [("broadcaster_type", .string user.BroadcasterType),
                           ("description", .string user.Description),
                           ("type", .string user.Type_),
                           ("offline_image_url", .string user.OfflineImageURL),
                           ("view_count", .number (toString user.ViewCount))] },
                    Slug := user.DisplayName, AvatarURL := user.ProfileImageURL,
                    FullName := user.Login, ProviderId := user.ID } }

/-! ## `internal/api/sms_provider/vonage.go` -/

/-- Go `sms_provider.VonageResponseMessage`. -/
structure VonageResponseMessage where
  MessageID : String := ""
  Status : String := ""
  ErrorText : String := ""
deriving DecidableEq, Repr

/-- Go `sms_provider.VonageResponse`. -/
structure VonageResponse where
  Messages : List VonageResponseMessage
deriving DecidableEq, Repr

/-- Go `(*VonageProvider).SendSms`, from the point where the HTTP exchange is
over: `exchange` is an error of `http.NewRequest`, `client.Do` or the JSON
decoder, or the decoded response.  The result is the pair `(string, error)`. -/
def VonageProvider.SendSms (exchange : Except Err VonageResponse) : String × Option Err :=
  match exchange with
  | .error err => ("", some err)
  | .ok resp =>
    match resp.Messages with
    | [] => ("", some (.plain "vonage error: Internal Error"))
    | first :: _ =>
      if first.Status ≠ "0" then
        (first.MessageID,
          some (.plain ("vonage error: " ++ first.ErrorText ++ " (status: " ++ first.Status ++
            ") for message " ++ first.MessageID)))
      else
        (first.MessageID, none)

/-! ## Wallet sign-in validation -/

/-- An instant, in nanoseconds since the Unix epoch, as a `time.Time` compares;
the same unit serves for durations. -/
abbrev Time := Int

/-- One second. -/
def second : Time := 1000000000

/-- The ten-minute tolerance window of the specification. -/
def tenMinutes : Time := 10 * 60 * second

/-- Modelled from the spec: the parsed Sign-In Message of the wallet flow
(section 3); the parser and the verifier are not among the sources at hand, only
their tests are.  `uriScheme` and `uriHost` are the scheme and the host (with
its port, if any) of `uri`. -/
structure SignInMessage where
  domain : String
  address : String
  statement : Option String := none
  uri : String
  uriScheme : String
  uriHost : String
  version : String := "1"
  chainId : Option String := none
  nonce : Option String := none
  issuedAt : Time
  expirationTime : Option Time := none
  notBefore : Option Time := none
deriving DecidableEq, Repr

/-- The host name of a host, without its port. -/
def hostnameOf (host : String) : String := String.mk (host.data.takeWhile (· ≠ ':'))

/-- The rejection of a sign-in, as the tests read it from the response:
`error` and `error_description`. -/
structure OAuthError where
  error : String
  errorDescription : String
deriving DecidableEq, Repr

/-- An `invalid_grant` rejection with the given description. -/
def invalidGrant (description : String) : OAuthError :=
  { error := "invalid_grant", errorDescription := description }

/-- Modelled from the spec: the validation pipeline of the wallet sign-in
verifier (section 4.1, steps 1 to 5, first failure wins), which is not among the
sources at hand.  `allowed` is the server's allow-list of sign-in origins and
`signatureVerifies` tells whether the signature verifies against the address.
The descriptions are the ones `web3_test.go` asserts.  On success the assertion
carries no email and has the address as its subject. -/
def validateSignInMessage (allowed : String → Bool) (signatureVerifies : Bool) (now : Time)
    (m : SignInMessage) : Except OAuthError UserProvidedData :=
  if m.uriScheme ≠ "https" ∧ hostnameOf m.uriHost ≠ "localhost" then
    .error (invalidGrant "Signed Solana message is using URI which does not use HTTPS")
  else if allowed m.uri = false then
    .error (invalidGrant "Signed Solana message is using URI which is not allowed on this server, message was signed for another app")
  else if m.domain ≠ m.uriHost then
    .error (invalidGrant "Signed Solana message is using a Domain that does not match the one in URI which is not allowed on this server")
  else if (match m.notBefore with | some nb => decide (now < nb) | none => false) = true then
    .error (invalidGrant "Signed Solana message becomes valid in the future")
  else if (match m.expirationTime with | some exp => decide (now > exp) | none => false) = true then
    .error (invalidGrant "Signed Solana message is expired")
  else if m.issuedAt > now + tenMinutes then
    .error (invalidGrant "Solana message was issued too far in the future")
  else if now > m.issuedAt + tenMinutes then
    .error (invalidGrant "Solana message was issued too long ago")
  else if signatureVerifies = false then
    .error (invalidGrant "Signature does not match address in message")
  else
    .ok { Emails := [], Metadata := some { Subject := m.address } }

/-! ## `internal/api/provider/provider.go` -/

/-- Go `chooseHost`.  The source tests and cuts the last byte of `base`; the byte
`'/'` is a character of its own in UTF-8, so the last character is tested and cut
here. -/
def chooseHost (base defaultHost : String) : String :=
  if base = "" then "https://" ++ defaultHost
  else if base.data.getLast? = some '/' then String.mk base.data.dropLast
  else base

/-! ## `internal/observability/request-logger.go` -/

/-- A `*logrus.Entry`, as far as the fields it carries (`Data`). -/
structure LogrusEntry where
  Data : GoMap JSONValue
deriving DecidableEq, Repr

/-- Go `logrus.NewEntry(logger)`: an entry without fields. -/
def LogrusEntry.NewEntry : LogrusEntry := { Data := GoMap.empty }

/-- Go `(*logrus.Entry).WithFields(fields)`: a new entry with the old fields and
the given ones, which win on a shared key. -/
def LogrusEntry.WithFields (e : LogrusEntry) (fields : GoMap JSONValue) : LogrusEntry :=
  { Data := { entries := e.Data.entries ++ fields.entries } }

/-- The keys under which values are kept in a `context.Context`. -/
inductive CtxKey where
  | LogEntryCtxKey
  | other (tag : String)
deriving DecidableEq, Repr

/-- A value kept in a context: a `*logEntry` (nil, or the address of a
`logEntry`), or a value of any other type. -/
inductive CtxValue where
  | logEntry (p : Option Nat)
  | other (tag : String)
deriving DecidableEq, Repr

/-- A `context.Context`, as far as its values: the pairs set by
`context.WithValue`, the latest first. -/
structure Context where
  values : List (CtxKey × CtxValue)
deriving DecidableEq, Repr

/-- Go `context.Background()`. -/
def Context.Background : Context := { values := [] }

/-- Go `context.WithValue(ctx, key, val)`. -/
def Context.WithValue (ctx : Context) (key : CtxKey) (val : CtxValue) : Context :=
  { values := (key, val) :: ctx.values }

/-- Go `ctx.Value(key)`: the latest value set for the key, nil when there is
none. -/
def Context.Value (ctx : Context) (key : CtxKey) : Option CtxValue :=
  (ctx.values.find? (fun e => e.1 = key)).map (fun e => e.2)

/-- The incoming `*http.Request`, as far as the logging middleware reads it:
`Header` is `r.Header.Get`, `FormValue` is `r.FormValue`, `Path` is
`r.URL.Path`, `ctx` is `r.Context()`. -/
structure HTTPRequest where
  Method : String
  Path : String
  Header : String → String
  FormValue : String → String
  ctx : Context

/-- Go `r.WithContext(ctx)`. -/
def HTTPRequest.WithContext (r : HTTPRequest) (ctx : Context) : HTTPRequest :=
  { r with ctx := ctx }

/-- A call of `Info` or `Error` on a `*logrus.Entry`: level, message and the
fields of the entry. -/
structure LogRecord where
  level : String
  msg : String
  fields : GoMap JSONValue
deriving DecidableEq, Repr

/-- The state the handlers share: the `logEntry` objects allocated so far (the
address of an object is its index, its content its `Entry`) and the calls made
on the logger. -/
structure World where
  logEntries : List LogrusEntry
  logged : List LogRecord
deriving DecidableEq, Repr

/-- What the wrapped response writer of chi reports once a handler has run. -/
structure ResponseInfo where
  Status : Int
  BytesWritten : Int
  Header : String → String

/-- An `http.Handler`: it runs on a request, changes the shared state and
answers. -/
abbrev Handler := World → HTTPRequest → World × ResponseInfo

/-- The configuration and the collaborators of the logging middleware:
`globalConfig.API.RequestIDHeader`, the UUID drawn by `uuid.NewV4`, the pair
`utilities.WithRequestID` / `utilities.GetRequestID`, `utilities.GetReferrer`,
`utilities.GetIPAddress`, and the time chi measures for the request, in
nanoseconds. -/
structure Observability where
  RequestIDHeader : String
  newUUID : String
  WithRequestID : Context → String → Context
  GetRequestID : Context → String
  GetReferrer : HTTPRequest → String
  GetIPAddress : HTTPRequest → String
  elapsed : Int

/-- Go `AddRequestID(globalConfig)(next)`. -/
def AddRequestID (env : Observability) (next : Handler) : Handler :=
  fun w r =>
    let id := env.newUUID
    let id := if env.RequestIDHeader ≠ "" then r.Header env.RequestIDHeader else id
    let ctx := r.ctx
    let ctx := env.WithRequestID ctx id
    next w (r.WithContext ctx)

/-- Go `(*structuredLogger).NewLogEntry`: the address of the new `logEntry` and
the state that holds it. -/
def structuredLogger.NewLogEntry (env : Observability) (w : World) (r : HTTPRequest) :
    Nat × World :=
  let referrer := env.GetReferrer r
  let e := LogrusEntry.NewEntry
  let logFields : GoMap JSONValue :=
    { entries := [("component", .string "api"), ("method", .string r.Method),
                  ("path", .string r.Path), ("remote_addr", .string (env.GetIPAddress r)),
                  ("referer", .string referrer)] }
  let logFields :=
    if r.Path = "/token" then logFields.set "grant_type" (.string (r.FormValue "grant_type"))
    else logFields
  let logFields :=
    if env.GetRequestID r.ctx ≠ "" then
      logFields.set "request_id" (.string (env.GetRequestID r.ctx))
    else logFields
  (w.logEntries.length, { w with logEntries := w.logEntries ++ [e.WithFields logFields] })

/-- Go `(*logEntry).Write` on the `logEntry` at address `p`. -/
def logEntry.Write (w : World) (p : Nat) (status _bytes : Int) (header : String → String)
    (elapsed : Int) : World :=
  let fields : GoMap JSONValue :=
    { entries := [("status", .number (toString status)),
                  ("duration", .number (toString elapsed))] }
  let errorCode := header "x-sb-error-code"
  let fields := if errorCode ≠ "" then fields.set "error_code" (.string errorCode) else fields
  let entry := (w.logEntries.getD p LogrusEntry.NewEntry).WithFields fields
  { logEntries := w.logEntries.set p entry
    logged := w.logged ++ [{ level := "info", msg := "request completed", fields := entry.Data }] }

/-- The middleware `chimiddleware.RequestLogger(&structuredLogger{...})(next)` of
the chi library: it asks the formatter for a log entry, runs `next` on the
request that carries the entry in its context under `LogEntryCtxKey`, and calls
`Write` on the entry when `next` is done. -/
def RequestLogger (env : Observability) (next : Handler) : Handler :=
  fun w r =>
    let created := structuredLogger.NewLogEntry env w r
    let served := next created.2
      (r.WithContext (r.ctx.WithValue .LogEntryCtxKey (.logEntry (some created.1))))
    (logEntry.Write served.1 created.1 served.2.Status served.2.BytesWritten served.2.Header
      env.elapsed, served.2)

/-- Go `NewStructuredLogger(logger, config)(next)`. -/
def NewStructuredLogger (env : Observability) (next : Handler) : Handler :=
  fun w r =>
    if r.Path = "/health" then next w r
    else RequestLogger env next w r

/-- Go `GetLogEntryFromContext`: the `*logEntry` it returns (nil is `none`) and
the state, which holds one more `logEntry` when a new one was made. -/
def GetLogEntryFromContext (w : World) (ctx : Context) : Option Nat × World :=
  let l : Option Nat :=
    match ctx.Value .LogEntryCtxKey with
    | some (.logEntry p) => p
    | _ => none
  match l with
  | none =>
    (some w.logEntries.length, { w with logEntries := w.logEntries ++ [LogrusEntry.NewEntry] })
  | some p => (some p, w)

/-- Go `SetLogEntryWithContext`. -/
def SetLogEntryWithContext (ctx : Context) (entry : CtxValue) : Context :=
  ctx.WithValue .LogEntryCtxKey entry

/-! ## Observations on traces -/

/-- The handles on which a transaction was opened, in order. -/
def transactionsOpened (tr : List Event) : List Connection :=
  tr.filterMap fun ev => match ev with
    | .transaction db => some db
    | _ => none

/-- The statements issued, in order: connection, text and bound parameters. -/
def statementsIssued (tr : List Event) : List (Connection × String × List Bytes) :=
  tr.filterMap fun ev => match ev with
    | .rawQuery tx q args _ => some (tx, q, args)
    | _ => none

/-- The calls of `ToUserModel`, in order: the parameters and the SSO flag. -/
def userModelsBuilt (tr : List Event) : List (SignupParams × Bool) :=
  tr.filterMap fun ev => match ev with
    | .toUserModel params isSSOUser => some (params, isSSOUser)
    | _ => none

/-- The inputs handed to `InvokeHook`, in order. -/
def hookInputs (tr : List Event) : List BeforeUserCreatedInput :=
  tr.filterMap fun ev => match ev with
    | .invokeHook _ req => some req
    | _ => none

/-- The responses handed to `hookserrors.Check`, in order. -/
def checksMade (tr : List Event) : List (Option Bytes) :=
  tr.filterMap fun ev => match ev with
    | .check response => some response
    | _ => none

/-- The payloads handed to `json.Unmarshal`, in order. -/
def decodeAttempts (tr : List Event) : List Bytes :=
  tr.filterMap fun ev => match ev with
    | .unmarshal data => some data
    | _ => none

/-! ## Concrete inputs -/

/-- A database on which every transaction opens and commits and every statement
succeeds without a row. -/
def quietStorage : Storage :=
  { beginTx := fun db => .ok { handle := db.handle, TX := some 1 }
    commitTx := fun _ => none
    rawQuery := fun _ _ _ => .ok none }

/-- A handle outside any transaction. -/
def idleConn : Connection := { handle := 0, TX := none }

/-- A handle inside an open transaction. -/
def busyConn : Connection := { handle := 0, TX := some 7 }

/-- A sample request. -/
def sampleRequest : Request := { ident := 1 }

/-- A sample user record. -/
def sampleUser : User :=
  { Email := "a@example.com", Aud := "authenticated", Provider := "google",
    UserMetaData := none, IsSSOUser := false }

/-- A sample identity assertion. -/
def sampleUserData : UserProvidedData :=
  { Emails := [⟨"a@example.com", true, true⟩], Metadata := some { Subject := "sub-1" } }

/-- An API whose linking engine always answers `decision`, whose hook manager
answers `hook` and whose `ToUserModel` copies the parameters. -/
def sampleAPI (enabled disableSignup : Bool) (decision : AccountLinkingDecision) (hook : Ret) :
    API :=
  { storage := quietStorage
    db := idleConn
    config := { DisableSignup := disableSignup }
    hooksEnabled := enabled
    InvokeHook := fun _ _ _ => hook
    requestAud := fun _ => "authenticated"
    DetermineAccountLinking := fun _ _ emails _ _ _ =>
      .ok { Decision := decision, CandidateEmail := emails.headD ⟨"", false, false⟩,
            LinkingDomain := "" }
    structsMap := fun md => [("sub", md.Subject)]
    ToUserModel := fun p sso =>
      .ok { Email := p.Email, Aud := p.Aud, Provider := p.Provider, UserMetaData := p.Data,
            IsSSOUser := sso } }

/-- A dispatcher with the default timeout of two seconds. -/
def sampleDispatcher : Dispatcher := { db := idleConn, hookTimeoutMS := 2000 }

/-- A sample hook configuration. -/
def sampleHook : ExtensibilityPointConfiguration := { HookName := "public.before_user_created" }

/-- A database on which the hook function answers `resp` and the two
`statement_timeout` statements succeed. -/
def answeringStorage (resp : Option Bytes) : Storage :=
  { beginTx := fun db => .ok { handle := db.handle, TX := some 1 }
    commitTx := fun _ => none
    rawQuery := fun _ q _ => if q = q2 sampleHook then .ok resp else .ok none }

/-- A database on which the hook function runs into the statement timeout. -/
def timingOutStorage : Storage :=
  { beginTx := fun db => .ok { handle := db.handle, TX := some 1 }
    commitTx := fun _ => none
    rawQuery := fun _ q _ =>
      if q = q2 sampleHook then .error (.plain "canceling statement due to statement timeout")
      else .ok none }

/-- A database on which the hook function answers "ok" and the statement that
resets the timeout then fails. -/
def resetFailingStorage : Storage :=
  { beginTx := fun db => .ok { handle := db.handle, TX := some 1 }
    commitTx := fun _ => none
    rawQuery := fun _ q _ =>
      if q = q2 sampleHook then .ok (some "ok")
      else if q = q3 then .error (.plain "connection lost")
      else .ok none }

/-- A codec on text: the request is sent as it is, decoding stores the payload,
and a response that reads "reject" carries an embedded error. -/
def textCodec : Codec String String :=
  { Marshal := fun s => .ok s
    Unmarshal := fun data _ => (data, none)
    Check := fun resp =>
      if resp = some "reject" then some (.unprocessableEntity "hook_rejected" "rejected" none)
      else none }

/-- A codec that cannot serialize any request. -/
def unserializableCodec : Codec String String :=
  { Marshal := fun _ => .error (.plain "json: unsupported type")
    Unmarshal := fun data _ => (data, none)
    Check := fun _ => none }

/-- A codec whose decoder fails with the error `e` and leaves `res` alone. -/
def failingDecoder (e : Err) : Codec String String :=
  { Marshal := fun s => .ok s
    Unmarshal := fun _ res => (res, some e)
    Check := fun _ => none }

/-- A second identity assertion, with another address and subject. -/
def otherUserData : UserProvidedData :=
  { Emails := [⟨"b@example.com", true, true⟩], Metadata := some { Subject := "sub-2" } }

/-- The provisional user the sample API builds for an address and subject. -/
def provisionalUser (email subject : String) : User :=
  { Email := email, Aud := "authenticated", Provider := "google",
    UserMetaData := some [("sub", subject)], IsSSOUser := false }

/-- An `HTTPError` a typed decoder may fail with. -/
def invalidOutputError : Err := .unprocessableEntity "validation_failed" "invalid hook output" none

/-- The instant 2025-03-29T00:00:00Z used throughout `web3_test.go`. -/
def testIssuedAt : Time := 1743206400 * second

/-- The allow-list of the test server: the site itself and the local
development origin. -/
def testAllowed (uri : String) : Bool :=
  uri = "https://linkly.id/" || uri = "http://localhost:5173/"

/-- The message of `TestHappyPath_FullMessage` (first example) and of
`TestValidationRules_Expired`. -/
def testFullMessage : SignInMessage :=
  { domain := "linkly.id", address := "9pStGkfG4TfFkk5VBwaP6XPLVXr8mq6uWfFJcchWHdwP",
    statement := some "Statement", uri := "https://linkly.id/", uriScheme := "https",
    uriHost := "linkly.id", issuedAt := testIssuedAt,
    expirationTime := some (testIssuedAt + 600 * second), notBefore := some testIssuedAt }

/-- The message of `TestHappyPath_MinimalMessage`, `TestValidationRules_Future`
and, with a `Not Before`, of `TestValidationRules_IssedTooLongAgo`. -/
def testMinimalMessage : SignInMessage :=
  { domain := "linkly.id", address := "DYhiCjDjLBX6dNLaJ2JEv3r6HGLAvfZBDmt2UBC6wb3w",
    statement := some "Statement", uri := "https://linkly.id/", uriScheme := "https",
    uriHost := "linkly.id", issuedAt := testIssuedAt }

/-- The second example of `TestHappyPath_FullMessage`: plain http on localhost,
issued at 2025-05-16T14:52:03.613Z. -/
def testLocalhostMessage : SignInMessage :=
  { domain := "localhost:5173", address := "2S3iKQhUGa8qy9GAdHWNJhjwcCKTPhBaCpt84SaFCXXa",
    statement := some "Sign in on localhost", uri := "http://localhost:5173/",
    uriScheme := "http", uriHost := "localhost:5173",
    issuedAt := 1747407123 * second + 613000000 }

/-- The message of `TestValidationRules_URINotHTTPSButIsHTTP`. -/
def testHttpMessage : SignInMessage :=
  { testMinimalMessage with uri := "http://supaabse.com", uriScheme := "http",
                            uriHost := "supaabse.com" }

/-- The message of `TestValidationRules_URINotAllowed`. -/
def testNotAllowedMessage : SignInMessage :=
  { testMinimalMessage with domain := "linkly.green", uri := "https://linkly.green/",
                            uriHost := "linkly.green",
                            expirationTime := some (testIssuedAt + 600 * second) }

/-- The message of `TestValidationRules_InvalidDomain`. -/
def testInvalidDomainMessage : SignInMessage :=
  { testMinimalMessage with domain := "linkly.green" }

/-- The message of `TestValidationRules_ValidatedBeforeNotBefore`. -/
def testNotBeforeMessage : SignInMessage :=
  { testMinimalMessage with notBefore := some (testIssuedAt + 60 * second) }

/-- A message whose `Not Before` lies after its `Expiration Time`: it expires
one minute after it was issued and becomes valid three minutes after. -/
def testInvertedWindowMessage : SignInMessage :=
  { testMinimalMessage with expirationTime := some (testIssuedAt + 60 * second),
                            notBefore := some (testIssuedAt + 180 * second) }

/-- A message that breaks all three URI rules at once: plain http, a URI off the
allow-list and a domain that is not the URI host. -/
def testAllBrokenMessage : SignInMessage :=
  { testMinimalMessage with domain := "linkly.green", uri := "http://supaabse.com",
                            uriScheme := "http", uriHost := "supaabse.com" }

/-- A Keycloak userinfo object with two claims beyond the known four, and with
`email_verified` given as a string. -/
def sampleKeycloakClaims : GoMap JSONValue :=
  { entries := [("sub", .string "kc-1"), ("name", .string "Ada"),
                ("email", .string "ada@example.com"), ("email_verified", .string "true"),
                ("groups", .composite "[1]"), ("locale", .string "en")] }

/-- A Zoom user signed in by email whose address was never confirmed. -/
def sampleZoomUser : zoomUser :=
  { ID := "z-1", FirstName := "Ada", LastName := "L", Email := "ada@example.com",
    EmailVerified := 0, LoginType := "100" }

/-- A Twitch user record. -/
def sampleTwitchUser : twitchUser :=
  { ID := "t-1", Login := "ada", DisplayName := "Ada", Email := "ada@example.com" }

/-- An API as `sampleAPI` with the hook enabled and signups open, whose linking
engine decides `CreateAccount` through an SSO domain. -/
def ssoAPI : API :=
  { sampleAPI true false .CreateAccount .nil with
    DetermineAccountLinking := fun _ _ emails _ _ _ =>
      .ok { Decision := .CreateAccount, CandidateEmail := emails.headD ⟨"", false, false⟩,
            LinkingDomain := "sso:example.com" } }

/-- The request id is kept in the context under a key of its own. -/
def sampleWithRequestID (ctx : Context) (id : String) : Context :=
  ctx.WithValue (.other "request_id") (.other id)

/-- The request id read back from the context, empty when there is none. -/
def sampleGetRequestID (ctx : Context) : String :=
  match ctx.Value (.other "request_id") with
  | some (.other id) => id
  | _ => ""

/-- The logging set-up of `TestLogger`: the request id comes from the header
`X-Request-ID`. -/
def testObservability : Observability :=
  { RequestIDHeader := "X-Request-ID"
    newUUID := "6ba7b810-9dad-11d1-80b4-00c04fd430c8"
    WithRequestID := sampleWithRequestID
    GetRequestID := sampleGetRequestID
    GetReferrer := fun _ => ""
    GetIPAddress := fun _ => "192.0.2.1"
    elapsed := 1500 }

/-- The request of `TestLogger`: `POST /path` with a request id header. -/
def testLoggerRequest : HTTPRequest :=
  { Method := "POST", Path := "/path"
    Header := fun name => if name = "X-Request-ID" then "test-request-id" else ""
    FormValue := fun _ => "", ctx := Context.Background }

/-- The same request without the request id header. -/
def testLoggerRequestNoID : HTTPRequest :=
  { Method := "POST", Path := "/path", Header := fun _ => ""
    FormValue := fun _ => "", ctx := Context.Background }

/-- The request of `TestExcludeHealthFromLogs`: `GET /health`. -/
def testHealthRequest : HTTPRequest :=
  { Method := "GET", Path := "/health", Header := fun _ => ""
    FormValue := fun _ => "", ctx := Context.Background }

/-- The handler of the tests: it answers 200 and touches nothing else. -/
def okHandler : Handler := fun w _ => (w, { Status := 200, BytesWritten := 0, Header := fun _ => "" })

/-- A state without log entries and without output. -/
def emptyWorld : World := { logEntries := [], logged := [] }

/-! ## Lemmas on the controller -/

/-- The linking step, when the transaction opens, the linking engine answers and
the commit succeeds. -/
theorem linkingTransaction_ok (a : API) (userData : UserProvidedData) (aud providerType : String)
    (tx : Connection) (md : Claims) (d : AccountLinkingResult)
    (hb : a.storage.beginTx a.db = .ok tx) (hm : userData.Metadata = some md)
    (hl : a.DetermineAccountLinking tx a.config userData.Emails aud providerType md.Subject
      = .ok d)
    (hc : a.storage.commitTx tx = none) :
    a.linkingTransaction userData aud providerType =
      { ret := .nil, state := d,
        trace := [.transaction a.db,
          .determineAccountLinking tx userData.Emails aud providerType md.Subject,
          .commit tx] } := by
  simp [API.linkingTransaction, Connection.Transaction, API.linkingFn, hb, hm, hl, hc]

/-! ## Claims on the controller -/

/-- C1 (as stated, refuted): with the before-user-created hook not enabled, a
call on a connection that has an open transaction returns nil from both
`triggerBeforeUserCreated` and `triggerBeforeUserCreatedExternal`, not the error
"unable to trigger hooks during transaction". -/
theorem checkTX_skipped_when_hook_disabled :
    busyConn.TX ≠ none ∧
    ((sampleAPI false false .CreateAccount .nil).triggerBeforeUserCreated
      sampleRequest busyConn sampleUser).ret = .nil ∧
    ((sampleAPI false false .CreateAccount .nil).triggerBeforeUserCreatedExternal
      sampleRequest busyConn sampleUserData "google").ret = .nil := by
  refine ⟨by simp [busyConn], rfl, rfl⟩

/-- C1 (amended): when the before-user-created hook is enabled, every call of
`triggerBeforeUserCreated` or `triggerBeforeUserCreatedExternal` on a connection
with an open transaction (`conn.TX` non-nil) returns the internal server error
"unable to trigger hooks during transaction" and takes no step at all: no
transaction is opened, the linking decision is not run and `InvokeHook` is not
called. -/
theorem trigger_fails_during_transaction (a : API) (r : Request) (conn : Connection)
    (user : User) (userData : UserProvidedData) (providerType : String)
    (hen : a.hooksEnabled = true) (htx : conn.TX ≠ none) :
    a.triggerBeforeUserCreated r conn user =
      { ret := .err (NewInternalServerError "unable to trigger hooks during transaction"),
        state := (), trace := [] } ∧
    a.triggerBeforeUserCreatedExternal r conn userData providerType =
      { ret := .err (NewInternalServerError "unable to trigger hooks during transaction"),
        state := (), trace := [] } := by
  simp [API.triggerBeforeUserCreated, API.triggerBeforeUserCreatedExternal, checkTX, hen, htx]

/-- C1 (amended), at a concrete input: hook enabled, connection inside a
transaction. -/
theorem trigger_fails_during_transaction_witness :
    ((sampleAPI true false .CreateAccount .nil).triggerBeforeUserCreated
        sampleRequest busyConn sampleUser =
      { ret := .err (NewInternalServerError "unable to trigger hooks during transaction"),
        state := (), trace := [] }) ∧
    ((sampleAPI true false .CreateAccount .nil).triggerBeforeUserCreatedExternal
        sampleRequest busyConn sampleUserData "google" =
      { ret := .err (NewInternalServerError "unable to trigger hooks during transaction"),
        state := (), trace := [] }) :=
  trigger_fails_during_transaction (sampleAPI true false .CreateAccount .nil) sampleRequest
    busyConn sampleUser sampleUserData "google" rfl (by simp [busyConn])

/-- C2: in `triggerBeforeUserCreatedExternal`, when the linking transaction
yields a result whose decision is not `CreateAccount`, the call returns nil and
its steps are exactly those of the linking transaction: `DisableSignup` is not
evaluated, `ToUserModel` is not called and the hook is not invoked. -/
theorem external_returns_nil_unless_create (a : API) (r : Request) (conn : Connection)
    (userData : UserProvidedData) (providerType : String) (tx : Connection) (md : Claims)
    (d : AccountLinkingResult)
    (hen : a.hooksEnabled = true) (htx : conn.TX = none)
    (hb : a.storage.beginTx a.db = .ok tx) (hm : userData.Metadata = some md)
    (hl : a.DetermineAccountLinking tx a.config userData.Emails (a.requestAud r) providerType
      md.Subject = .ok d)
    (hc : a.storage.commitTx tx = none)
    (hd : d.Decision ≠ .CreateAccount) :
    a.triggerBeforeUserCreatedExternal r conn userData providerType =
      { ret := .nil, state := (),
        trace := [.transaction a.db,
          .determineAccountLinking tx userData.Emails (a.requestAud r) providerType md.Subject,
          .commit tx] } := by
  simp [API.triggerBeforeUserCreatedExternal, checkTX, hen, htx,
    linkingTransaction_ok a userData (a.requestAud r) providerType tx md d hb hm hl hc, hd]

/-- C2 at a concrete input: the linking engine answers `AccountExists` while
signups are disabled and the hook would reject. -/
theorem external_returns_nil_unless_create_witness :
    (sampleAPI true true .AccountExists .panic).triggerBeforeUserCreatedExternal
        sampleRequest idleConn sampleUserData "google" =
      { ret := .nil, state := (),
        trace := [.transaction idleConn,
          .determineAccountLinking { handle := 0, TX := some 1 } sampleUserData.Emails
            "authenticated" "google" "sub-1",
          .commit { handle := 0, TX := some 1 }] } :=
  external_returns_nil_unless_create (sampleAPI true true .AccountExists .panic) sampleRequest
    idleConn sampleUserData "google" { handle := 0, TX := some 1 } { Subject := "sub-1" }
    { Decision := .AccountExists, CandidateEmail := ⟨"a@example.com", true, true⟩,
      LinkingDomain := "" }
    rfl rfl rfl rfl rfl rfl (by decide)

/-- C3: in `triggerBeforeUserCreatedExternal`, when the linking decision is
`CreateAccount` and `config.DisableSignup` is true, the call returns the
unprocessable-entity error with code `ErrorCodeSignupDisabled` and message
"Signups not allowed for this instance"; after the linking transaction the only
further step is the evaluation of the flag, so `ToUserModel` is not called and
the hook is not invoked. -/
theorem external_signup_disabled (a : API) (r : Request) (conn : Connection)
    (userData : UserProvidedData) (providerType : String) (tx : Connection) (md : Claims)
    (d : AccountLinkingResult)
    (hen : a.hooksEnabled = true) (htx : conn.TX = none)
    (hb : a.storage.beginTx a.db = .ok tx) (hm : userData.Metadata = some md)
    (hl : a.DetermineAccountLinking tx a.config userData.Emails (a.requestAud r) providerType
      md.Subject = .ok d)
    (hc : a.storage.commitTx tx = none)
    (hd : d.Decision = .CreateAccount) (hs : a.config.DisableSignup = true) :
    a.triggerBeforeUserCreatedExternal r conn userData providerType =
      { ret := .err (NewUnprocessableEntityError ErrorCodeSignupDisabled
          "Signups not allowed for this instance"),
        state := (),
        trace := [.transaction a.db,
          .determineAccountLinking tx userData.Emails (a.requestAud r) providerType md.Subject,
          .commit tx, .disableSignup true] } := by
  simp [API.triggerBeforeUserCreatedExternal, checkTX, hen, htx,
    linkingTransaction_ok a userData (a.requestAud r) providerType tx md d hb hm hl hc, hd, hs]

/-- C3 at a concrete input: decision `CreateAccount`, signups disabled, and a
hook that would fault if it were reached. -/
theorem external_signup_disabled_witness :
    (sampleAPI true true .CreateAccount .panic).triggerBeforeUserCreatedExternal
        sampleRequest idleConn sampleUserData "google" =
      { ret := .err (NewUnprocessableEntityError ErrorCodeSignupDisabled
          "Signups not allowed for this instance"),
        state := (),
        trace := [.transaction idleConn,
          .determineAccountLinking { handle := 0, TX := some 1 } sampleUserData.Emails
            "authenticated" "google" "sub-1",
          .commit { handle := 0, TX := some 1 }, .disableSignup true] } :=
  external_signup_disabled (sampleAPI true true .CreateAccount .panic) sampleRequest
    idleConn sampleUserData "google" { handle := 0, TX := some 1 } { Subject := "sub-1" }
    { Decision := .CreateAccount, CandidateEmail := ⟨"a@example.com", true, true⟩,
      LinkingDomain := "" }
    rfl rfl rfl rfl rfl rfl rfl rfl

/-! ## Lemmas on the dispatcher -/

theorem q1_ne_q3 (o : Dispatcher) : o.q1 ≠ q3 := by
  intro h
  have h2 := congrArg (fun x : String => x.data.get? 31) h
  simp [Dispatcher.q1, q3, String.data_append] at h2

theorem q2_ne_q3 (cfg : ExtensibilityPointConfiguration) : q2 cfg ≠ q3 := by
  intro h
  have h2 := congrArg (fun x : String => x.data.get? 2) h
  simp [q2, q3, String.data_append] at h2

/-- The closure only ever issues statements, all of them on the connection it
is given, and never faults. -/
theorem invokeHookFunc_trace (st : Storage) (o : Dispatcher)
    (cfg : ExtensibilityPointConfiguration) (request : Bytes) (t : Connection) :
    (o.invokeHookFunc st cfg request t).ret ≠ .panic ∧
    transactionsOpened (o.invokeHookFunc st cfg request t).trace = [] ∧
    decodeAttempts (o.invokeHookFunc st cfg request t).trace = [] ∧
    statementsIssued (o.invokeHookFunc st cfg request t).trace <+:
      [(t, o.q1, []), (t, q2 cfg, [request]), (t, q3, [])] := by
  unfold Dispatcher.invokeHookFunc
  cases st.rawQuery t o.q1 [] with
  | error e => simp [transactionsOpened, decodeAttempts, statementsIssued]
  | ok r1 =>
    cases st.rawQuery t (q2 cfg) [request] with
    | error e =>
      simp only [transactionsOpened, decodeAttempts, statementsIssued]
      refine ⟨by simp, by simp, by simp, ⟨[(t, q3, [])], by simp⟩⟩
    | ok r2 =>
      cases st.rawQuery t q3 [] with
      | error e => simp [transactionsOpened, decodeAttempts, statementsIssued]
      | ok r3 => simp [transactionsOpened, decodeAttempts, statementsIssued]

/-- The closure when its three statements succeed. -/
theorem invokeHookFunc_ok (st : Storage) (o : Dispatcher)
    (cfg : ExtensibilityPointConfiguration) (request : Bytes) (t : Connection)
    (r1 r3 response : Option Bytes)
    (h1 : st.rawQuery t o.q1 [] = .ok r1)
    (h2 : st.rawQuery t (q2 cfg) [request] = .ok response)
    (h3 : st.rawQuery t q3 [] = .ok r3) :
    o.invokeHookFunc st cfg request t =
      { ret := .nil, state := response,
        trace := [.rawQuery t o.q1 [] true, .rawQuery t (q2 cfg) [request] true,
          .rawQuery t q3 [] true] } := by
  simp [Dispatcher.invokeHookFunc, h1, h2, h3]

/-- What follows the database phase of a dispatch: at most the embedded-error
check and one decoding, neither of which touches the database. -/
theorem Dispatch_trace_split {Req Res : Type} (st : Storage) (cd : Codec Req Res)
    (o : Dispatcher) (cfg : ExtensibilityPointConfiguration) (tx : Option Connection)
    (req : Req) (res : Res) (request : Bytes) (hm : cd.Marshal req = .ok request) :
    ∃ post, (o.Dispatch st cd cfg tx req res).trace =
        (o.callInvokeHookFunc st cfg request tx).trace ++ post ∧
      transactionsOpened post = [] ∧ statementsIssued post = [] := by
  unfold Dispatcher.Dispatch Dispatcher.runPostgresHook
  simp only [hm]
  cases hr : (o.callInvokeHookFunc st cfg request tx).ret with
  | err e => exact ⟨[], by simp, rfl, rfl⟩
  | panic => exact ⟨[], by simp, rfl, rfl⟩
  | nil =>
    simp only []
    cases hc : cd.Check (o.callInvokeHookFunc st cfg request tx).state with
    | some e =>
      exact ⟨[.check (o.callInvokeHookFunc st cfg request tx).state], by simp, rfl, rfl⟩
    | none =>
      simp only []
      cases hs : (o.callInvokeHookFunc st cfg request tx).state with
      | none => exact ⟨[.check none], by simp, rfl, rfl⟩
      | some data =>
        simp only []
        rcases hu : cd.Unmarshal data res with ⟨res', _ | err⟩
        · exact ⟨[.check (some data), .unmarshal data], by simp, rfl, rfl⟩
        · simp only []
          cases errorsAsHTTPError err with
          | some e => exact ⟨[.check (some data), .unmarshal data], by simp, rfl, rfl⟩
          | none => exact ⟨[.check (some data), .unmarshal data], by simp, rfl, rfl⟩

theorem transactionsOpened_append (a b : List Event) :
    transactionsOpened (a ++ b) = transactionsOpened a ++ transactionsOpened b := by
  simp [transactionsOpened, List.filterMap_append]

theorem statementsIssued_append (a b : List Event) :
    statementsIssued (a ++ b) = statementsIssued a ++ statementsIssued b := by
  simp [statementsIssued, List.filterMap_append]

theorem decodeAttempts_append (a b : List Event) :
    decodeAttempts (a ++ b) = decodeAttempts a ++ decodeAttempts b := by
  simp [decodeAttempts, List.filterMap_append]

/-- A transaction that opens brackets the steps of its function between the
opening and a commit or a rollback. -/
theorem Transaction_trace {σ : Type} (st : Storage) (db t : Connection) (init : σ)
    (fn : Connection → Run σ) (hb : st.beginTx db = .ok t) (hp : (fn t).ret ≠ .panic) :
    (Connection.Transaction st db init fn).trace = .transaction db :: (fn t).trace ++ [.commit t] ∨
    (Connection.Transaction st db init fn).trace =
      .transaction db :: (fn t).trace ++ [.rollback t] := by
  unfold Connection.Transaction
  simp only [hb]
  cases hr : (fn t).ret with
  | panic => exact absurd hr hp
  | err e => right; rfl
  | nil =>
    left
    cases st.commitTx t <;> rfl

/-- The statements of a dispatch are those of its database phase. -/
theorem Dispatch_statements {Req Res : Type} (st : Storage) (cd : Codec Req Res)
    (o : Dispatcher) (cfg : ExtensibilityPointConfiguration) (tx : Option Connection)
    (req : Req) (res : Res) (request : Bytes) (hm : cd.Marshal req = .ok request) :
    statementsIssued (o.Dispatch st cd cfg tx req res).trace =
      statementsIssued (o.callInvokeHookFunc st cfg request tx).trace := by
  obtain ⟨post, hsplit, -, hps⟩ := Dispatch_trace_split st cd o cfg tx req res request hm
  rw [hsplit, statementsIssued_append, hps, List.append_nil]

theorem checksMade_append (a b : List Event) :
    checksMade (a ++ b) = checksMade a ++ checksMade b := by
  simp [checksMade, List.filterMap_append]

/-- The database phase calls neither `hookserrors.Check` nor `json.Unmarshal`. -/
theorem callInvokeHookFunc_no_codec (st : Storage) (o : Dispatcher)
    (cfg : ExtensibilityPointConfiguration) (request : Bytes) (tx : Option Connection) :
    checksMade (o.callInvokeHookFunc st cfg request tx).trace = [] ∧
    decodeAttempts (o.callInvokeHookFunc st cfg request tx).trace = [] := by
  cases tx with
  | some t =>
    simp only [Dispatcher.callInvokeHookFunc, Dispatcher.invokeHookFunc]
    cases st.rawQuery t o.q1 [] <;> cases st.rawQuery t (q2 cfg) [request] <;>
      cases st.rawQuery t q3 [] <;> simp [checksMade, decodeAttempts]
  | none =>
    simp only [Dispatcher.callInvokeHookFunc, Connection.Transaction, Dispatcher.invokeHookFunc]
    cases st.beginTx o.db with
    | error e => simp [checksMade, decodeAttempts]
    | ok t =>
      simp only []
      cases st.rawQuery t o.q1 [] <;> cases st.rawQuery t (q2 cfg) [request] <;>
        cases st.rawQuery t q3 [] <;> cases st.commitTx t <;> simp [checksMade, decodeAttempts]

/-- The four ways a dispatch whose request serializes can end: the database
phase failed; the response carries an embedded error; the response is nil; the
response was handed to the decoder. -/
theorem Dispatch_cases {Req Res : Type} (st : Storage) (cd : Codec Req Res)
    (o : Dispatcher) (cfg : ExtensibilityPointConfiguration) (tx : Option Connection)
    (req : Req) (res : Res) (request : Bytes) (hm : cd.Marshal req = .ok request) :
    ((o.callInvokeHookFunc st cfg request tx).ret ≠ .nil ∧
      o.Dispatch st cd cfg tx req res =
        { ret := (o.callInvokeHookFunc st cfg request tx).ret, state := res,
          trace := (o.callInvokeHookFunc st cfg request tx).trace }) ∨
    (∃ e, cd.Check (o.callInvokeHookFunc st cfg request tx).state = some e ∧
      o.Dispatch st cd cfg tx req res =
        { ret := .err e, state := res,
          trace := (o.callInvokeHookFunc st cfg request tx).trace ++
            [.check (o.callInvokeHookFunc st cfg request tx).state] }) ∨
    (cd.Check none = none ∧
      o.Dispatch st cd cfg tx req res =
        { ret := .nil, state := res,
          trace := (o.callInvokeHookFunc st cfg request tx).trace ++ [.check none] }) ∨
    (∃ data, cd.Check (some data) = none ∧
      (o.Dispatch st cd cfg tx req res).trace =
        (o.callInvokeHookFunc st cfg request tx).trace ++ [.check (some data), .unmarshal data] ∧
      (o.Dispatch st cd cfg tx req res).state = (cd.Unmarshal data res).1 ∧
      (o.Dispatch st cd cfg tx req res).ret =
        match (cd.Unmarshal data res).2 with
        | none => .nil
        | some err =>
          match errorsAsHTTPError err with
          | some e => .err e
          | none => .err (.internalServerError "Error unmarshaling JSON output." (some err))) := by
  unfold Dispatcher.Dispatch Dispatcher.runPostgresHook
  simp only [hm]
  cases hr : (o.callInvokeHookFunc st cfg request tx).ret with
  | err e => left; exact ⟨by simp, rfl⟩
  | panic => left; exact ⟨by simp, rfl⟩
  | nil =>
    right
    simp only []
    cases hc : cd.Check (o.callInvokeHookFunc st cfg request tx).state with
    | some e => left; exact ⟨e, rfl, rfl⟩
    | none =>
      right
      simp only []
      cases hs : (o.callInvokeHookFunc st cfg request tx).state with
      | none =>
        left
        rw [hs] at hc
        exact ⟨hc, rfl⟩
      | some data =>
        right
        rw [hs] at hc
        refine ⟨data, hc, ?_⟩
        simp only []
        rcases hu : cd.Unmarshal data res with ⟨res', _ | err⟩
        · exact ⟨by simp, rfl, rfl⟩
        · simp only []
          cases he : errorsAsHTTPError err with
          | some e => exact ⟨by simp, rfl, rfl⟩
          | none => exact ⟨by simp, rfl, rfl⟩

/-- The statements of the database phase when all three succeed, whatever the
commit of a transaction of the dispatcher's own then does. -/
theorem callInvokeHookFunc_statements_ok (st : Storage) (o : Dispatcher)
    (cfg : ExtensibilityPointConfiguration) (request : Bytes) (tx : Option Connection)
    (t : Connection) (r1 r2 r3 : Option Bytes)
    (htx : tx = some t ∨ (tx = none ∧ st.beginTx o.db = .ok t))
    (h1 : st.rawQuery t o.q1 [] = .ok r1)
    (h2 : st.rawQuery t (q2 cfg) [request] = .ok r2)
    (h3 : st.rawQuery t q3 [] = .ok r3) :
    statementsIssued (o.callInvokeHookFunc st cfg request tx).trace =
      [(t, o.q1, []), (t, q2 cfg, [request]), (t, q3, [])] := by
  rcases htx with rfl | ⟨rfl, hb⟩
  · simp [Dispatcher.callInvokeHookFunc, invokeHookFunc_ok st o cfg request t r1 r3 r2 h1 h2 h3,
      statementsIssued]
  · cases hc : st.commitTx t <;>
      simp [Dispatcher.callInvokeHookFunc, Connection.Transaction, hb, hc,
        invokeHookFunc_ok st o cfg request t r1 r3 r2 h1 h2 h3, statementsIssued]

/-- The database phase when the three statements succeed and, for a transaction
of the dispatcher's own, the opening and the commit succeed: it returns nil and
hands over the response of the hook call. -/
theorem callInvokeHookFunc_ok (st : Storage) (o : Dispatcher)
    (cfg : ExtensibilityPointConfiguration) (request : Bytes) (tx : Option Connection)
    (t : Connection) (r1 r3 response : Option Bytes)
    (htx : tx = some t ∨ (tx = none ∧ st.beginTx o.db = .ok t ∧ st.commitTx t = none))
    (h1 : st.rawQuery t o.q1 [] = .ok r1)
    (h2 : st.rawQuery t (q2 cfg) [request] = .ok response)
    (h3 : st.rawQuery t q3 [] = .ok r3) :
    (o.callInvokeHookFunc st cfg request tx).ret = .nil ∧
    (o.callInvokeHookFunc st cfg request tx).state = response := by
  rcases htx with rfl | ⟨rfl, hb, hc⟩
  · simp [Dispatcher.callInvokeHookFunc,
      invokeHookFunc_ok st o cfg request t r1 r3 response h1 h2 h3]
  · simp [Dispatcher.callInvokeHookFunc, Connection.Transaction, hb, hc,
      invokeHookFunc_ok st o cfg request t r1 r3 response h1 h2 h3]

/-! ## Claims on the dispatcher -/

/-- C4: for a dispatch whose request serializes, (1) on a caller-supplied
transaction `t` the dispatcher opens no transaction (`db.Transaction` is never
called) and the statements it issues are, in order, the set-timeout, hook-call
and reset statements on `t` (all three when none of them fails); (2) with a nil
`tx` it opens exactly one transaction, on its own handle `o.db`, and the
statements it issues are those same three on the connection of that
transaction, all of them after the opening and before the commit or rollback. -/
theorem dispatch_transaction_boundary {Req Res : Type} (st : Storage) (cd : Codec Req Res)
    (o : Dispatcher) (cfg : ExtensibilityPointConfiguration) (req : Req) (res : Res)
    (request : Bytes) (hm : cd.Marshal req = .ok request) :
    (∀ t : Connection,
      transactionsOpened (o.Dispatch st cd cfg (some t) req res).trace = [] ∧
      statementsIssued (o.Dispatch st cd cfg (some t) req res).trace <+:
        [(t, o.q1, []), (t, q2 cfg, [request]), (t, q3, [])] ∧
      (∀ r1 r2 r3 : Option Bytes, st.rawQuery t o.q1 [] = .ok r1 →
        st.rawQuery t (q2 cfg) [request] = .ok r2 → st.rawQuery t q3 [] = .ok r3 →
        statementsIssued (o.Dispatch st cd cfg (some t) req res).trace =
          [(t, o.q1, []), (t, q2 cfg, [request]), (t, q3, [])])) ∧
    transactionsOpened (o.Dispatch st cd cfg none req res).trace = [o.db] ∧
    (∀ t : Connection, st.beginTx o.db = .ok t →
      statementsIssued (o.Dispatch st cd cfg none req res).trace <+:
        [(t, o.q1, []), (t, q2 cfg, [request]), (t, q3, [])] ∧
      (∀ r1 r2 r3 : Option Bytes, st.rawQuery t o.q1 [] = .ok r1 →
        st.rawQuery t (q2 cfg) [request] = .ok r2 → st.rawQuery t q3 [] = .ok r3 →
        statementsIssued (o.Dispatch st cd cfg none req res).trace =
          [(t, o.q1, []), (t, q2 cfg, [request]), (t, q3, [])]) ∧
      ∃ closing, (o.Dispatch st cd cfg none req res).trace =
          .transaction o.db :: (o.invokeHookFunc st cfg request t).trace ++ closing ∧
        statementsIssued closing = [] ∧
        (closing.head? = some (.commit t) ∨ closing.head? = some (.rollback t))) := by
  refine ⟨fun t => ?_, ?_, fun t hb => ?_⟩
  · obtain ⟨post, hsplit, hpt, hps⟩ := Dispatch_trace_split st cd o cfg (some t) req res request hm
    obtain ⟨-, hit, -, his⟩ := invokeHookFunc_trace st o cfg request t
    have hcall : o.callInvokeHookFunc st cfg request (some t) =
        o.invokeHookFunc st cfg request t := rfl
    rw [hsplit, hcall, transactionsOpened_append, statementsIssued_append, hpt, hps, hit]
    refine ⟨rfl, by simpa using his, fun r1 r2 r3 h1 h2 h3 => ?_⟩
    rw [invokeHookFunc_ok st o cfg request t r1 r3 r2 h1 h2 h3]
    simp [statementsIssued]
  · obtain ⟨post, hsplit, hpt, hps⟩ := Dispatch_trace_split st cd o cfg none req res request hm
    rw [hsplit, transactionsOpened_append, hpt]
    have hcall : o.callInvokeHookFunc st cfg request none =
        Connection.Transaction st o.db none (o.invokeHookFunc st cfg request) := rfl
    rw [hcall]
    cases hb : st.beginTx o.db with
    | error e => simp [Connection.Transaction, hb, transactionsOpened]
    | ok t =>
      obtain ⟨hnp, hit, -, -⟩ := invokeHookFunc_trace st o cfg request t
      rcases Transaction_trace st o.db t none (o.invokeHookFunc st cfg request) hb hnp with h | h
      · rw [h]
        have : transactionsOpened (Event.transaction o.db ::
            ((o.invokeHookFunc st cfg request t).trace ++ [Event.commit t])) =
            o.db :: (transactionsOpened (o.invokeHookFunc st cfg request t).trace ++
              transactionsOpened [Event.commit t]) := by
          rw [← transactionsOpened_append]; rfl
        simp only [List.cons_append] at this ⊢
        rw [this, hit]; rfl
      · rw [h]
        have : transactionsOpened (Event.transaction o.db ::
            ((o.invokeHookFunc st cfg request t).trace ++ [Event.rollback t])) =
            o.db :: (transactionsOpened (o.invokeHookFunc st cfg request t).trace ++
              transactionsOpened [Event.rollback t]) := by
          rw [← transactionsOpened_append]; rfl
        simp only [List.cons_append] at this ⊢
        rw [this, hit]; rfl
  · obtain ⟨post, hsplit, hpt, hps⟩ := Dispatch_trace_split st cd o cfg none req res request hm
    obtain ⟨hnp, hit, -, his⟩ := invokeHookFunc_trace st o cfg request t
    have hcall : o.callInvokeHookFunc st cfg request none =
        Connection.Transaction st o.db none (o.invokeHookFunc st cfg request) := rfl
    have hstmt : ∀ closing : List Event, statementsIssued closing = [] →
        statementsIssued (Event.transaction o.db ::
          (o.invokeHookFunc st cfg request t).trace ++ closing) =
        statementsIssued (o.invokeHookFunc st cfg request t).trace := by
      intro closing hcl
      have : statementsIssued (Event.transaction o.db ::
          (o.invokeHookFunc st cfg request t).trace ++ closing) =
          statementsIssued (o.invokeHookFunc st cfg request t).trace ++
            statementsIssued closing := by
        rw [← statementsIssued_append]; rfl
      rw [this, hcl, List.append_nil]
    have key : ∃ closing, (o.Dispatch st cd cfg none req res).trace =
          .transaction o.db :: (o.invokeHookFunc st cfg request t).trace ++ closing ∧
        statementsIssued closing = [] ∧
        (closing.head? = some (.commit t) ∨ closing.head? = some (.rollback t)) := by
      rw [hsplit, hcall]
      rcases Transaction_trace st o.db t none (o.invokeHookFunc st cfg request) hb hnp with h | h
      · refine ⟨.commit t :: post, ?_, ?_, Or.inl rfl⟩
        · rw [h]; simp
        · have : statementsIssued (Event.commit t :: post) = statementsIssued post := rfl
          rw [this, hps]
      · refine ⟨.rollback t :: post, ?_, ?_, Or.inr rfl⟩
        · rw [h]; simp
        · have : statementsIssued (Event.rollback t :: post) = statementsIssued post := rfl
          rw [this, hps]
    obtain ⟨closing, htr, hcl, hhead⟩ := key
    refine ⟨?_, fun r1 r2 r3 h1 h2 h3 => ?_, closing, htr, hcl, hhead⟩
    · rw [htr, hstmt closing hcl]; exact his
    · rw [htr, hstmt closing hcl, invokeHookFunc_ok st o cfg request t r1 r3 r2 h1 h2 h3]
      simp [statementsIssued]

/-- C4 at a concrete input: the sample dispatcher on a caller-supplied
transaction opens none, and with a nil `tx` opens one on its own handle. -/
theorem dispatch_transaction_boundary_witness :
    transactionsOpened (sampleDispatcher.Dispatch (answeringStorage (some "ok")) textCodec
      sampleHook (some busyConn) "payload" "").trace = [] ∧
    transactionsOpened (sampleDispatcher.Dispatch (answeringStorage (some "ok")) textCodec
      sampleHook none "payload" "").trace = [idleConn] :=
  ⟨((dispatch_transaction_boundary (answeringStorage (some "ok")) textCodec sampleDispatcher
      sampleHook "payload" "" "payload" rfl).1 busyConn).1,
   (dispatch_transaction_boundary (answeringStorage (some "ok")) textCodec sampleDispatcher
      sampleHook "payload" "" "payload" rfl).2.1⟩

/-- C5: for every dispatch (on a caller-supplied transaction, or on one the
dispatcher opened) in which the three statements succeed, the statements issued
are exactly "set local statement_timeout TO '<hookTimeoutMS>';", then
"select <HookName>(?);" with the serialized request as its single bound
parameter, then "set local statement_timeout TO default;", all on the
transaction and with nothing in between. -/
theorem dispatch_statements_in_order {Req Res : Type} (st : Storage) (cd : Codec Req Res)
    (o : Dispatcher) (cfg : ExtensibilityPointConfiguration) (tx : Option Connection)
    (req : Req) (res : Res) (request : Bytes) (t : Connection) (r1 r2 r3 : Option Bytes)
    (hm : cd.Marshal req = .ok request)
    (htx : tx = some t ∨ (tx = none ∧ st.beginTx o.db = .ok t))
    (h1 : st.rawQuery t
      ("set local statement_timeout TO '" ++ toString o.hookTimeoutMS ++ "';") [] = .ok r1)
    (h2 : st.rawQuery t ("select " ++ cfg.HookName ++ "(?);") [request] = .ok r2)
    (h3 : st.rawQuery t "set local statement_timeout TO default;" [] = .ok r3) :
    statementsIssued (o.Dispatch st cd cfg tx req res).trace =
      [(t, "set local statement_timeout TO '" ++ toString o.hookTimeoutMS ++ "';", []),
       (t, "select " ++ cfg.HookName ++ "(?);", [request]),
       (t, "set local statement_timeout TO default;", [])] := by
  rw [Dispatch_statements st cd o cfg tx req res request hm]
  exact callInvokeHookFunc_statements_ok st o cfg request tx t r1 r2 r3 htx h1 h2 h3

/-- C5 at a concrete input: the sample dispatcher (2000 ms) calling
`public.before_user_created` on a caller-supplied transaction. -/
theorem dispatch_statements_in_order_witness :
    statementsIssued (sampleDispatcher.Dispatch (answeringStorage (some "ok")) textCodec
      sampleHook (some busyConn) "payload" "").trace =
      [(busyConn, "set local statement_timeout TO '2000';", []),
       (busyConn, "select public.before_user_created(?);", ["payload"]),
       (busyConn, "set local statement_timeout TO default;", [])] :=
  dispatch_statements_in_order (answeringStorage (some "ok")) textCodec sampleDispatcher
    sampleHook (some busyConn) "payload" "" "payload" busyConn none (some "ok") none rfl
    (Or.inl rfl) rfl rfl rfl

/-- C6 (as stated, refuted): on a caller-supplied transaction, when the timeout
statement succeeds and the hook call then fails, `Dispatch` returns the hook
call's error after two statements only.  The timeout statement was executed,
the reset statement is never issued, and `Dispatch` takes no other step on the
transaction before it returns. -/
theorem reset_not_issued_when_hook_call_fails :
    sampleDispatcher.Dispatch timingOutStorage textCodec sampleHook (some busyConn)
        "payload" "" =
      { ret := .err (.plain "canceling statement due to statement timeout"),
        state := "",
        trace := [.rawQuery busyConn "set local statement_timeout TO '2000';" [] true,
          .rawQuery busyConn "select public.before_user_created(?);" ["payload"] false] } ∧
    (busyConn, "set local statement_timeout TO default;", []) ∉
      statementsIssued (sampleDispatcher.Dispatch timingOutStorage textCodec sampleHook
        (some busyConn) "payload" "").trace := by
  constructor
  · rfl
  · decide

/-- C6 (amended): for every dispatch on a caller-supplied transaction `t` in
which the timeout statement was executed: if the hook call succeeds, the reset
statement is issued on `t` right after it, as the last statement of the
dispatch; if the hook call fails, `Dispatch` returns the hook call's error
without issuing the reset statement or taking any other step. -/
theorem hook_timeout_scope {Req Res : Type} (st : Storage) (cd : Codec Req Res)
    (o : Dispatcher) (cfg : ExtensibilityPointConfiguration) (t : Connection)
    (req : Req) (res : Res) (request : Bytes) (r1 : Option Bytes)
    (hm : cd.Marshal req = .ok request)
    (h1 : st.rawQuery t o.q1 [] = .ok r1) :
    (∀ r2 : Option Bytes, st.rawQuery t (q2 cfg) [request] = .ok r2 →
      statementsIssued (o.Dispatch st cd cfg (some t) req res).trace =
        [(t, o.q1, []), (t, q2 cfg, [request]), (t, q3, [])]) ∧
    (∀ e : Err, st.rawQuery t (q2 cfg) [request] = .error e →
      o.Dispatch st cd cfg (some t) req res =
        { ret := .err e, state := res,
          trace := [.rawQuery t o.q1 [] true, .rawQuery t (q2 cfg) [request] false] } ∧
      (t, q3, []) ∉ statementsIssued (o.Dispatch st cd cfg (some t) req res).trace) := by
  have hcall : o.callInvokeHookFunc st cfg request (some t) =
      o.invokeHookFunc st cfg request t := rfl
  refine ⟨fun r2 h2 => ?_, fun e h2 => ?_⟩
  · rw [Dispatch_statements st cd o cfg (some t) req res request hm, hcall]
    cases h3 : st.rawQuery t q3 [] <;>
      simp [Dispatcher.invokeHookFunc, h1, h2, h3, statementsIssued]
  · have hD : o.Dispatch st cd cfg (some t) req res =
        { ret := .err e, state := res,
          trace := [.rawQuery t o.q1 [] true, .rawQuery t (q2 cfg) [request] false] } := by
      simp [Dispatcher.Dispatch, Dispatcher.runPostgresHook, Dispatcher.callInvokeHookFunc,
        Dispatcher.invokeHookFunc, hm, h1, h2]
    refine ⟨hD, ?_⟩
    rw [hD]
    simp [statementsIssued, (q1_ne_q3 o).symm, (q2_ne_q3 cfg).symm]

/-- C6 (amended) at a concrete input: the sample dispatcher on a caller-supplied
transaction of a database on which the hook call succeeds and the reset
statement then fails; the reset is issued all the same. -/
theorem hook_timeout_scope_witness :
    statementsIssued (sampleDispatcher.Dispatch resetFailingStorage textCodec sampleHook
        (some busyConn) "payload" "").trace =
      [(busyConn, "set local statement_timeout TO '2000';", []),
       (busyConn, "select public.before_user_created(?);", ["payload"]),
       (busyConn, "set local statement_timeout TO default;", [])] :=
  (hook_timeout_scope resetFailingStorage textCodec sampleDispatcher sampleHook
      busyConn "payload" "" "payload" none rfl rfl).1 (some "ok") rfl

/-- C7: when the hook's response carries an embedded structured error, that
is, the request serializes, the three statements succeed on the transaction
(the caller's, or one of the dispatcher's own that opens and commits), the hook
call answers `response` and `hookserrors.Check` returns an error `e` on it, then
`Dispatch` returns exactly `e`, the caller's `res` is left as it was,
`json.Unmarshal` is never called, and the check was made on that response. -/
theorem dispatch_returns_embedded_error {Req Res : Type} (st : Storage) (cd : Codec Req Res)
    (o : Dispatcher) (cfg : ExtensibilityPointConfiguration) (tx : Option Connection)
    (req : Req) (res : Res) (request : Bytes) (t : Connection)
    (r1 r3 response : Option Bytes) (e : Err)
    (hm : cd.Marshal req = .ok request)
    (htx : tx = some t ∨ (tx = none ∧ st.beginTx o.db = .ok t ∧ st.commitTx t = none))
    (h1 : st.rawQuery t o.q1 [] = .ok r1)
    (h2 : st.rawQuery t (q2 cfg) [request] = .ok response)
    (h3 : st.rawQuery t q3 [] = .ok r3)
    (hc : cd.Check response = some e) :
    (o.Dispatch st cd cfg tx req res).ret = .err e ∧
    (o.Dispatch st cd cfg tx req res).state = res ∧
    decodeAttempts (o.Dispatch st cd cfg tx req res).trace = [] ∧
    checksMade (o.Dispatch st cd cfg tx req res).trace = [response] := by
  obtain ⟨hret, hstate⟩ :=
    callInvokeHookFunc_ok st o cfg request tx t r1 r3 response htx h1 h2 h3
  obtain ⟨hck, hdc⟩ := callInvokeHookFunc_no_codec st o cfg request tx
  have hD : o.Dispatch st cd cfg tx req res =
      { ret := .err e, state := res,
        trace := (o.callInvokeHookFunc st cfg request tx).trace ++ [.check response] } := by
    simp [Dispatcher.Dispatch, Dispatcher.runPostgresHook, hm, hret, hstate, hc]
  rw [hD]
  refine ⟨rfl, rfl, ?_, ?_⟩
  · show decodeAttempts ((o.callInvokeHookFunc st cfg request tx).trace ++
      [.check response]) = []
    rw [decodeAttempts_append, hdc]
    rfl
  · show checksMade ((o.callInvokeHookFunc st cfg request tx).trace ++
      [.check response]) = [response]
    rw [checksMade_append, hck]
    rfl

/-- C7 at a concrete input: on a caller-supplied transaction the hook answers
"reject", which the sample codec reads as an embedded error. -/
theorem dispatch_returns_embedded_error_witness :
    (sampleDispatcher.Dispatch (answeringStorage (some "reject")) textCodec sampleHook
        (some busyConn) "payload" "untouched").ret =
      .err (.unprocessableEntity "hook_rejected" "rejected" none) ∧
    (sampleDispatcher.Dispatch (answeringStorage (some "reject")) textCodec sampleHook
        (some busyConn) "payload" "untouched").state = "untouched" ∧
    decodeAttempts (sampleDispatcher.Dispatch (answeringStorage (some "reject")) textCodec
        sampleHook (some busyConn) "payload" "untouched").trace = [] ∧
    checksMade (sampleDispatcher.Dispatch (answeringStorage (some "reject")) textCodec
        sampleHook (some busyConn) "payload" "untouched").trace = [some "reject"] :=
  dispatch_returns_embedded_error (answeringStorage (some "reject")) textCodec sampleDispatcher
    sampleHook (some busyConn) "payload" "untouched" "payload" busyConn none none
    (some "reject") (.unprocessableEntity "hook_rejected" "rejected" none)
    rfl (Or.inl rfl) rfl rfl rfl rfl

/-- C8: when serializing the request fails with `err`, `Dispatch` returns the
internal server error "Error marshaling JSON input." with `err` as its internal
error, leaves `res` alone and takes no database step: no transaction is opened
and no statement is issued. -/
theorem dispatch_marshal_failure {Req Res : Type} (st : Storage) (cd : Codec Req Res)
    (o : Dispatcher) (cfg : ExtensibilityPointConfiguration) (tx : Option Connection)
    (req : Req) (res : Res) (err : Err) (hm : cd.Marshal req = .error err) :
    o.Dispatch st cd cfg tx req res =
      { ret := .err (.internalServerError "Error marshaling JSON input." (some err)),
        state := res, trace := [] } := by
  simp [Dispatcher.Dispatch, Dispatcher.runPostgresHook, hm, NewInternalServerError,
    Err.WithInternalError]

/-- C8 at a concrete input: a codec that cannot serialize, with a nil `tx`. -/
theorem dispatch_marshal_failure_witness :
    sampleDispatcher.Dispatch quietStorage unserializableCodec sampleHook none "payload" "" =
      { ret := .err (.internalServerError "Error marshaling JSON input."
          (some (.plain "json: unsupported type"))),
        state := "", trace := [] } :=
  dispatch_marshal_failure quietStorage unserializableCodec sampleDispatcher sampleHook none
    "payload" "" (.plain "json: unsupported type") rfl

/-- C9 (as stated, refuted): a response that passes the embedded-error check
and whose decoding fails with an `HTTPError` makes `Dispatch` return that
`HTTPError` itself, not an internal error "Error unmarshaling JSON output."
wrapping it. -/
theorem decode_http_error_returned_as_is :
    (failingDecoder invalidOutputError).Check (some "ok") = none ∧
    (failingDecoder invalidOutputError).Unmarshal "ok" "" = ("", some invalidOutputError) ∧
    (sampleDispatcher.Dispatch (answeringStorage (some "ok")) (failingDecoder invalidOutputError)
      sampleHook (some busyConn) "payload" "").ret =
        .err (.unprocessableEntity "validation_failed" "invalid hook output" none) ∧
    (sampleDispatcher.Dispatch (answeringStorage (some "ok")) (failingDecoder invalidOutputError)
      sampleHook (some busyConn) "payload" "").ret ≠
        .err (.internalServerError "Error unmarshaling JSON output."
          (some invalidOutputError)) := by
  refine ⟨rfl, rfl, rfl, ?_⟩
  intro h
  have h2 : (Ret.err (.unprocessableEntity "validation_failed" "invalid hook output" none)) =
      .err (.internalServerError "Error unmarshaling JSON output."
        (some invalidOutputError)) := h
  cases h2

/-- C9 (amended): for every hook response that passes the embedded-error check
but cannot be decoded, that is, the request serializes, the three statements
succeed on the transaction (the caller's, or one of the dispatcher's own that
opens and commits), the hook call answers `data`, `hookserrors.Check` finds no
error in it and `json.Unmarshal` fails on it with `err`: `Dispatch` hands `data`
to the decoder, and when `err` is not and does not wrap an
`apierrors.HTTPError` it returns the internal server error
"Error unmarshaling JSON output." with `err` as its internal error; when
`errors.As` finds an `HTTPError` `e` in `err`, it returns `e` itself. -/
theorem dispatch_decode_failure {Req Res : Type} (st : Storage) (cd : Codec Req Res)
    (o : Dispatcher) (cfg : ExtensibilityPointConfiguration) (tx : Option Connection)
    (req : Req) (res res' : Res) (request : Bytes) (t : Connection)
    (r1 r3 : Option Bytes) (data : Bytes) (err : Err)
    (hm : cd.Marshal req = .ok request)
    (htx : tx = some t ∨ (tx = none ∧ st.beginTx o.db = .ok t ∧ st.commitTx t = none))
    (h1 : st.rawQuery t o.q1 [] = .ok r1)
    (h2 : st.rawQuery t (q2 cfg) [request] = .ok (some data))
    (h3 : st.rawQuery t q3 [] = .ok r3)
    (hc : cd.Check (some data) = none)
    (hu : cd.Unmarshal data res = (res', some err)) :
    decodeAttempts (o.Dispatch st cd cfg tx req res).trace = [data] ∧
    (errorsAsHTTPError err = none →
      (o.Dispatch st cd cfg tx req res).ret =
        .err (.internalServerError "Error unmarshaling JSON output." (some err))) ∧
    (∀ e : Err, errorsAsHTTPError err = some e →
      (o.Dispatch st cd cfg tx req res).ret = .err e) := by
  obtain ⟨hret, hstate⟩ :=
    callInvokeHookFunc_ok st o cfg request tx t r1 r3 (some data) htx h1 h2 h3
  obtain ⟨-, hdc⟩ := callInvokeHookFunc_no_codec st o cfg request tx
  have hp : o.runPostgresHook st cd cfg tx req =
      { ret := .nil, state := some data,
        trace := (o.callInvokeHookFunc st cfg request tx).trace ++ [.check (some data)] } := by
    simp [Dispatcher.runPostgresHook, hm, hret, hstate, hc]
  have htr : (o.Dispatch st cd cfg tx req res).trace =
      ((o.callInvokeHookFunc st cfg request tx).trace ++ [.check (some data)]) ++
        [.unmarshal data] := by
    cases he : errorsAsHTTPError err <;> simp [Dispatcher.Dispatch, hp, hu, he]
  refine ⟨?_, fun hnone => ?_, fun e he => ?_⟩
  · rw [htr, decodeAttempts_append, decodeAttempts_append, hdc]
    rfl
  · simp [Dispatcher.Dispatch, hp, hu, hnone, NewInternalServerError, Err.WithInternalError]
  · simp [Dispatcher.Dispatch, hp, hu, he]

/-- C9 (amended) at a concrete input: the decoder fails with a plain JSON
error on a transaction of the dispatcher's own. -/
theorem dispatch_decode_failure_witness :
    (sampleDispatcher.Dispatch (answeringStorage (some "ok"))
      (failingDecoder (.plain "unexpected end of JSON input")) sampleHook none
      "payload" "").ret =
        .err (.internalServerError "Error unmarshaling JSON output."
          (some (.plain "unexpected end of JSON input"))) :=
  (dispatch_decode_failure (answeringStorage (some "ok"))
    (failingDecoder (.plain "unexpected end of JSON input")) sampleDispatcher sampleHook
    none "payload" "" "" "payload" ⟨sampleDispatcher.db.handle, some 1⟩ none none "ok"
    (.plain "unexpected end of JSON input")
    rfl (Or.inr ⟨rfl, rfl, rfl⟩) rfl rfl rfl rfl rfl).2.1 rfl

/-- C10 (as stated, refuted): on hook success the controller hands nothing back
but nil.  Two create-account runs whose provisional users differ (the hook is
invoked with a different user in each) return the same result, nil, with no
state returned to the caller. -/
theorem external_hands_back_no_user :
    (sampleAPI true false .CreateAccount .nil).triggerBeforeUserCreatedExternal
        sampleRequest idleConn sampleUserData "google" =
      { ret := .nil, state := (),
        trace := [.transaction idleConn,
          .determineAccountLinking { handle := 0, TX := some 1 } sampleUserData.Emails
            "authenticated" "google" "sub-1",
          .commit { handle := 0, TX := some 1 },
          .disableSignup false,
          .toUserModel ⟨"google", "a@example.com", "authenticated", some [("sub", "sub-1")]⟩ false,
          .invokeHook idleConn
            (NewBeforeUserCreatedInput sampleRequest (provisionalUser "a@example.com" "sub-1"))] } ∧
    (sampleAPI true false .CreateAccount .nil).triggerBeforeUserCreatedExternal
        sampleRequest idleConn otherUserData "google" =
      { ret := .nil, state := (),
        trace := [.transaction idleConn,
          .determineAccountLinking { handle := 0, TX := some 1 } otherUserData.Emails
            "authenticated" "google" "sub-2",
          .commit { handle := 0, TX := some 1 },
          .disableSignup false,
          .toUserModel ⟨"google", "b@example.com", "authenticated", some [("sub", "sub-2")]⟩ false,
          .invokeHook idleConn
            (NewBeforeUserCreatedInput sampleRequest (provisionalUser "b@example.com" "sub-2"))] } ∧
    provisionalUser "a@example.com" "sub-1" ≠ provisionalUser "b@example.com" "sub-2" := by
  refine ⟨rfl, rfl, by decide⟩

/-- C10 (amended): in the create-account path of
`triggerBeforeUserCreatedExternal` (hook enabled, no open transaction, decision
`CreateAccount`, signups enabled, provisional user built), the result is exactly
what `InvokeHook` returns for the provisional user: the hook's error, unchanged,
on rejection and nil on success.  The error is the only thing handed back to
the caller; the provisional user record is not. -/
theorem external_create_path_returns_hook_result (a : API) (r : Request) (conn : Connection)
    (userData : UserProvidedData) (providerType : String) (tx : Connection) (md : Claims)
    (d : AccountLinkingResult) (user : User)
    (hen : a.hooksEnabled = true) (htx : conn.TX = none)
    (hb : a.storage.beginTx a.db = .ok tx) (hm : userData.Metadata = some md)
    (hl : a.DetermineAccountLinking tx a.config userData.Emails (a.requestAud r) providerType
      md.Subject = .ok d)
    (hc : a.storage.commitTx tx = none)
    (hd : d.Decision = .CreateAccount) (hs : a.config.DisableSignup = false)
    (hu : a.ToUserModel
      { Provider := providerType, Email := d.CandidateEmail.Email, Aud := a.requestAud r,
        Data := some (a.structsMap md) } (HasPrefix d.LinkingDomain "sso:") = .ok user) :
    a.triggerBeforeUserCreatedExternal r conn userData providerType =
      { ret := a.InvokeHook conn r (NewBeforeUserCreatedInput r user),
        state := (),
        trace := [.transaction a.db,
          .determineAccountLinking tx userData.Emails (a.requestAud r) providerType md.Subject,
          .commit tx, .disableSignup false,
          .toUserModel
            { Provider := providerType, Email := d.CandidateEmail.Email, Aud := a.requestAud r,
              Data := some (a.structsMap md) } (HasPrefix d.LinkingDomain "sso:"),
          .invokeHook conn (NewBeforeUserCreatedInput r user)] } := by
  simp [API.triggerBeforeUserCreatedExternal, API.triggerBeforeUserCreated, checkTX, hen, htx,
    linkingTransaction_ok a userData (a.requestAud r) providerType tx md d hb hm hl hc, hd, hs,
    hm, hu]

/-- C10 (amended) at a concrete input: the hook rejects the signup and its
error comes back unchanged. -/
theorem external_create_path_returns_hook_result_witness :
    ((sampleAPI true false .CreateAccount
        (.err (.unprocessableEntity "hook_rejected" "rejected" none))).triggerBeforeUserCreatedExternal
      sampleRequest idleConn sampleUserData "google").ret =
        .err (.unprocessableEntity "hook_rejected" "rejected" none) :=
  congrArg Run.ret
    (external_create_path_returns_hook_result
      (sampleAPI true false .CreateAccount
        (.err (.unprocessableEntity "hook_rejected" "rejected" none)))
      sampleRequest idleConn sampleUserData "google" { handle := 0, TX := some 1 }
      { Subject := "sub-1" }
      { Decision := .CreateAccount, CandidateEmail := ⟨"a@example.com", true, true⟩,
        LinkingDomain := "" }
      (provisionalUser "a@example.com" "sub-1")
      rfl rfl rfl rfl rfl rfl rfl rfl rfl)

/-! ## The provisional user and the status of the rejection -/

/-- The prefix test of `strings.HasPrefix`, as a statement about the string. -/
theorem HasPrefix_iff (s pre : String) :
    HasPrefix s pre = true ↔ ∃ rest : String, s = pre ++ rest := by
  unfold HasPrefix
  rw [List.isPrefixOf_iff_prefix]
  constructor
  · rintro ⟨t, ht⟩
    refine ⟨⟨t⟩, ?_⟩
    apply String.ext
    simp [String.data_append, ht]
  · rintro ⟨rest, rfl⟩
    exact ⟨rest.data, by simp [String.data_append]⟩

/-- C11: in the create-account path of `triggerBeforeUserCreatedExternal`,
`ToUserModel` is called exactly once, with provider = the provider name, email
= `decision.CandidateEmail.Email`, audience = the request audience and data =
the map form (`structs.Map`) of the assertion metadata, and with an SSO flag
that is true if and only if `decision.LinkingDomain` begins with "sso:"; the
hook is then invoked with the user that call returned, and with nothing else. -/
theorem provisional_user_inputs (a : API) (r : Request) (conn : Connection)
    (userData : UserProvidedData) (providerType : String) (tx : Connection) (md : Claims)
    (d : AccountLinkingResult)
    (hen : a.hooksEnabled = true) (htx : conn.TX = none)
    (hb : a.storage.beginTx a.db = .ok tx) (hm : userData.Metadata = some md)
    (hl : a.DetermineAccountLinking tx a.config userData.Emails (a.requestAud r) providerType
      md.Subject = .ok d)
    (hc : a.storage.commitTx tx = none)
    (hd : d.Decision = .CreateAccount) (hs : a.config.DisableSignup = false) :
    ∃ isSSOUser : Bool,
      (isSSOUser = true ↔ ∃ rest : String, d.LinkingDomain = "sso:" ++ rest) ∧
      userModelsBuilt (a.triggerBeforeUserCreatedExternal r conn userData providerType).trace =
        [({ Provider := providerType, Email := d.CandidateEmail.Email, Aud := a.requestAud r,
            Data := some (a.structsMap md) }, isSSOUser)] ∧
      hookInputs (a.triggerBeforeUserCreatedExternal r conn userData providerType).trace =
        match a.ToUserModel
          { Provider := providerType, Email := d.CandidateEmail.Email, Aud := a.requestAud r,
            Data := some (a.structsMap md) } isSSOUser with
        | .ok user => [NewBeforeUserCreatedInput r user]
        | .error _ => [] := by
  refine ⟨HasPrefix d.LinkingDomain "sso:", HasPrefix_iff _ _, ?_, ?_⟩
  · cases hu : a.ToUserModel
        { Provider := providerType, Email := d.CandidateEmail.Email, Aud := a.requestAud r,
          Data := some (a.structsMap md) } (HasPrefix d.LinkingDomain "sso:") <;>
      simp [API.triggerBeforeUserCreatedExternal, API.triggerBeforeUserCreated, checkTX, hen, htx,
        linkingTransaction_ok a userData (a.requestAud r) providerType tx md d hb hm hl hc, hd,
        hs, hm, hu, userModelsBuilt]
  · cases hu : a.ToUserModel
        { Provider := providerType, Email := d.CandidateEmail.Email, Aud := a.requestAud r,
          Data := some (a.structsMap md) } (HasPrefix d.LinkingDomain "sso:") <;>
      simp [API.triggerBeforeUserCreatedExternal, API.triggerBeforeUserCreated, checkTX, hen, htx,
        linkingTransaction_ok a userData (a.requestAud r) providerType tx md d hb hm hl hc, hd,
        hs, hm, hu, hookInputs]

/-- C11 at a concrete input: a linking decision taken through the SSO domain
"sso:example.com". -/
theorem provisional_user_inputs_witness :
    ∃ isSSOUser : Bool,
      (isSSOUser = true ↔ ∃ rest : String, "sso:example.com" = "sso:" ++ rest) ∧
      userModelsBuilt (ssoAPI.triggerBeforeUserCreatedExternal sampleRequest idleConn
        sampleUserData "keycloak").trace =
        [(⟨"keycloak", "a@example.com", "authenticated", some [("sub", "sub-1")]⟩, isSSOUser)] ∧
      hookInputs (ssoAPI.triggerBeforeUserCreatedExternal sampleRequest idleConn
        sampleUserData "keycloak").trace =
        match ssoAPI.ToUserModel
          ⟨"keycloak", "a@example.com", "authenticated", some [("sub", "sub-1")]⟩ isSSOUser with
        | .ok user => [NewBeforeUserCreatedInput sampleRequest user]
        | .error _ => [] :=
  provisional_user_inputs ssoAPI sampleRequest idleConn sampleUserData "keycloak"
    { handle := 0, TX := some 1 } { Subject := "sub-1" }
    { Decision := .CreateAccount, CandidateEmail := ⟨"a@example.com", true, true⟩,
      LinkingDomain := "sso:example.com" }
    rfl rfl rfl rfl rfl rfl rfl rfl

/-- C12: the policy rejection the identity resolution controller produces
itself, the signup-disabled error returned by `triggerBeforeUserCreatedExternal`
when the decision is `CreateAccount` and `DisableSignup` is set, is the error
built by `NewUnprocessableEntityError` with the signup-disabled code, and its
HTTP-equivalent status, the one the specification gives to policy rejections,
is 400. -/
theorem signup_disabled_status (a : API) (r : Request) (conn : Connection)
    (userData : UserProvidedData) (providerType : String) (tx : Connection) (md : Claims)
    (d : AccountLinkingResult)
    (hen : a.hooksEnabled = true) (htx : conn.TX = none)
    (hb : a.storage.beginTx a.db = .ok tx) (hm : userData.Metadata = some md)
    (hl : a.DetermineAccountLinking tx a.config userData.Emails (a.requestAud r) providerType
      md.Subject = .ok d)
    (hc : a.storage.commitTx tx = none)
    (hd : d.Decision = .CreateAccount) (hs : a.config.DisableSignup = true) :
    ∃ e : Err,
      (a.triggerBeforeUserCreatedExternal r conn userData providerType).ret = .err e ∧
      e = NewUnprocessableEntityError ErrorCodeSignupDisabled
        "Signups not allowed for this instance" ∧
      e.HTTPStatus = some 400 := by
  refine ⟨_, ?_, rfl, rfl⟩
  simp [API.triggerBeforeUserCreatedExternal, checkTX, hen, htx,
    linkingTransaction_ok a userData (a.requestAud r) providerType tx md d hb hm hl hc, hd, hs]

/-- C12 at a concrete input: decision `CreateAccount` with signups disabled. -/
theorem signup_disabled_status_witness :
    ∃ e : Err,
      ((sampleAPI true true .CreateAccount .nil).triggerBeforeUserCreatedExternal
        sampleRequest idleConn sampleUserData "google").ret = .err e ∧
      e = NewUnprocessableEntityError ErrorCodeSignupDisabled
        "Signups not allowed for this instance" ∧
      e.HTTPStatus = some 400 :=
  signup_disabled_status (sampleAPI true true .CreateAccount .nil) sampleRequest idleConn
    sampleUserData "google" { handle := 0, TX := some 1 } { Subject := "sub-1" }
    { Decision := .CreateAccount, CandidateEmail := ⟨"a@example.com", true, true⟩,
      LinkingDomain := "" }
    rfl rfl rfl rfl rfl rfl rfl rfl

/-! ## Construction of the dispatcher -/

/-- The last option of `New` is applied last. -/
theorem New_append (db : Connection) (opts : List DispatcherOption) (o : DispatcherOption) :
    New db (opts ++ [o]) = o (New db opts) := by
  simp [New, List.foldl_append]

/-- C13: a dispatcher built by `New` with no options has a hook timeout of 2000
ms, and its timeout statement reads "set local statement_timeout TO '2000';"; a
dispatcher built with `WithTimeout(d)` for `d` = `k` milliseconds has timeout
`k`; and when `WithTimeout(d)` is the last of several options, whatever the
earlier ones did, the timeout is the one of `d`. -/
theorem New_timeout (db : Connection) :
    (New db []).hookTimeoutMS = 2000 ∧
    (New db []).q1 = "set local statement_timeout TO '2000';" ∧
    (∀ k : Int, (New db [WithTimeout (k * 1000000)]).hookTimeoutMS = k) ∧
    (∀ (opts : List DispatcherOption) (k : Int),
      (New db (opts ++ [WithTimeout (k * 1000000)])).hookTimeoutMS = k) ∧
    (∀ (opts : List DispatcherOption) (d₁ d₂ : Int),
      New db (opts ++ [WithTimeout d₁, WithTimeout d₂]) = New db (opts ++ [WithTimeout d₂])) := by
  refine ⟨rfl, rfl, fun k => ?_, fun opts k => ?_, fun opts d₁ d₂ => ?_⟩
  · simp [New, WithTimeout, Int.mul_tdiv_cancel]
  · rw [New_append]
    simp [WithTimeout, Int.mul_tdiv_cancel]
  · have h : opts ++ [WithTimeout d₁, WithTimeout d₂] =
        (opts ++ [WithTimeout d₁]) ++ [WithTimeout d₂] := by simp
    rw [h, New_append, New_append, New_append]
    simp [WithTimeout]

/-! ## The provider adapters -/

/-- The keys `standardClaims` holds as true are the four known ones. -/
theorem standardClaims_get (k : String) :
    (standardClaims.get k).getD false =
      decide (k = "name" ∨ k = "sub" ∨ k = "email" ∨ k = "email_verified") := by
  by_cases h1 : k = "name"
  · subst h1; decide
  by_cases h2 : k = "sub"
  · subst h2; decide
  by_cases h3 : k = "email"
  · subst h3; decide
  by_cases h4 : k = "email_verified"
  · subst h4; decide
  have e1 : ("name" = k) = False := by simp [eq_comm, h1]
  have e2 : ("sub" = k) = False := by simp [eq_comm, h2]
  have e3 : ("email" = k) = False := by simp [eq_comm, h3]
  have e4 : ("email_verified" = k) = False := by simp [eq_comm, h4]
  simp [standardClaims, GoMap.get, h1, h2, h3, h4, e1, e2, e3, e4]

/-- The loop over the raw claims keeps the entries whose key is not a known
one, in order. -/
theorem keycloakCustomClaims_entries (raw : GoMap JSONValue) :
    (keycloakCustomClaims raw).entries =
      raw.entries.filter (fun e => !((standardClaims.get e.1).getD false)) := by
  have key : ∀ (l : List (String × JSONValue)) (acc : GoMap JSONValue),
      (l.foldl (fun customClaims e =>
        if !((standardClaims.get e.1).getD false) then customClaims.set e.1 e.2
        else customClaims) acc).entries =
      acc.entries ++ l.filter (fun e => !((standardClaims.get e.1).getD false)) := by
    intro l
    induction l with
    | nil => intro acc; simp
    | cons e l ih =>
      intro acc
      rw [List.foldl_cons, ih]
      by_cases h : (standardClaims.get e.1).getD false = true
      · simp [h]
      · simp [h, GoMap.set]
  simpa [keycloakCustomClaims, GoMap.empty] using key raw.entries GoMap.empty

/-- Looking a key up among the entries that pass a test on keys. -/
theorem get_filter {V : Type} (p : String → Bool) (k : String) (l : List (String × V))
    (init : Option V) :
    (l.filter (fun e => p e.1)).foldl (fun acc e => if e.1 = k then some e.2 else acc) init =
      if p k = true then l.foldl (fun acc e => if e.1 = k then some e.2 else acc) init
      else init := by
  induction l generalizing init with
  | nil => simp
  | cons e l ih =>
    by_cases hp : p e.1 = true
    · simp only [List.filter_cons, hp, if_true, List.foldl_cons]
      rw [ih]
      by_cases hpk : p k = true
      · simp [hpk]
      · have hk : e.1 ≠ k := fun h => hpk (h ▸ hp)
        simp [hpk, hk]
    · have hf : p e.1 = false := by simpa using hp
      simp only [List.filter_cons, hf, Bool.false_eq_true, if_false, List.foldl_cons]
      rw [ih]
      by_cases hk : e.1 = k
      · have hpk : ¬ (p k = true) := hk ▸ hp
        simp [hpk]
      · simp [hk]

/-- The decoder of `keycloakUser` keeps the whole object in `RawClaims`. -/
theorem UnmarshalJSON_RawClaims (raw : GoMap JSONValue) :
    ∃ u : keycloakUser, keycloakUser.UnmarshalJSON {} (.ok raw) = .ok u ∧ u.RawClaims = raw := by
  refine ⟨_, rfl, ?_⟩
  simp only []
  repeat' split
  all_goals rfl

/-- C14: for every Keycloak userinfo object `raw`, the adapter returns an
assertion whose `CustomClaims` holds, for every key other than "name", "sub",
"email" and "email_verified", exactly what `raw` holds for it (the raw value, or
nothing when `raw` has no such key), and holds nothing for the four known
keys. -/
theorem keycloak_custom_claims (host : String) (raw : GoMap JSONValue) :
    ∃ (data : UserProvidedData) (md : Claims),
      keycloakProvider.GetUserData host (.ok raw) = .ok data ∧
      data.Metadata = some md ∧
      ∀ k : String, md.CustomClaims.get k =
        if k = "name" ∨ k = "sub" ∨ k = "email" ∨ k = "email_verified" then none
        else raw.get k := by
  obtain ⟨u, hu, hraw⟩ := UnmarshalJSON_RawClaims raw
  have hg : keycloakProvider.GetUserData host (.ok raw) =
      .ok { Emails := if u.Email ≠ "" then [⟨u.Email, u.EmailVerified, true⟩] else []
            Metadata := some { Issuer := host, Subject := u.Sub, Name := u.Name,
                               Email := u.Email, EmailVerified := u.EmailVerified,
                               CustomClaims := keycloakCustomClaims u.RawClaims,
                               FullName := u.Name, ProviderId := u.Sub } } := by
    simp only [keycloakProvider.GetUserData, hu]
  refine ⟨_, _, hg, rfl, fun k => ?_⟩
  show (keycloakCustomClaims u.RawClaims).get k = _
  rw [hraw]
  unfold GoMap.get
  rw [keycloakCustomClaims_entries,
    get_filter (fun key => !((standardClaims.get key).getD false)) k raw.entries none]
  simp only [standardClaims_get]
  by_cases h : k = "name" ∨ k = "sub" ∨ k = "email" ∨ k = "email_verified"
  · simp [h]
  · simp [h]

/-- C15: for every Zoom user with a non-empty email, the adapter emits one
email, the user's, marked primary, and marked verified if and only if
`login_type` is not "100" or the `verified` flag is non-zero; it is unverified
exactly when `login_type` is "100" and the flag is 0. -/
theorem zoom_email_verified (apiPath : String) (u : zoomUser) (he : u.Email ≠ "") :
    ∃ (data : UserProvidedData) (e : Email),
      zoomProvider.GetUserData apiPath (.ok u) = .ok data ∧
      data.Emails = [e] ∧ e.Email = u.Email ∧ e.Primary = true ∧
      (e.Verified = true ↔ (u.LoginType ≠ "100" ∨ u.EmailVerified ≠ 0)) ∧
      (e.Verified = false ↔ (u.LoginType = "100" ∧ u.EmailVerified = 0)) := by
  by_cases h : u.LoginType ≠ "100" ∨ u.EmailVerified ≠ 0
  · refine ⟨_, ⟨u.Email, true, true⟩, rfl, ?_, rfl, rfl, ?_, ?_⟩
    · simp [he, h]
    · simp [h]
    · constructor
      · intro hf; cases hf
      · rintro ⟨h1, h2⟩
        rcases h with h | h
        · exact absurd h1 h
        · exact absurd h2 h
  · refine ⟨_, ⟨u.Email, false, true⟩, rfl, ?_, rfl, rfl, ?_, ?_⟩
    · simp [he, h]
    · constructor
      · intro hf; cases hf
      · intro h'; exact absurd h' h
    · constructor
      · intro _
        constructor
        · by_contra h1; exact h (Or.inl h1)
        · by_contra h2; exact h (Or.inr h2)
      · intro _; rfl

/-- C15 at a concrete input: an email-based login whose address was never
confirmed. -/
theorem zoom_email_verified_witness :
    ∃ (data : UserProvidedData) (e : Email),
      zoomProvider.GetUserData "https://api.zoom.us/v2" (.ok sampleZoomUser) = .ok data ∧
      data.Emails = [e] ∧ e.Email = "ada@example.com" ∧ e.Primary = true ∧
      (e.Verified = true ↔ (("100" : String) ≠ "100" ∨ (0 : Int) ≠ 0)) ∧
      (e.Verified = false ↔ (("100" : String) = "100" ∧ (0 : Int) = 0)) :=
  zoom_email_verified "https://api.zoom.us/v2" sampleZoomUser (by decide)

/-- C16: every assertion the Keycloak, Twitch and Zoom adapters return has an
empty `Emails` when the provider's email is the empty string, and otherwise a
single entry holding that address with `Primary` set; so at most one of its
emails is primary. -/
theorem adapters_emit_at_most_one_primary_email :
    (∀ (host : String) (raw : GoMap JSONValue) (u : keycloakUser) (data : UserProvidedData),
      keycloakUser.UnmarshalJSON {} (.ok raw) = .ok u →
      keycloakProvider.GetUserData host (.ok raw) = .ok data →
      data.Emails = (if u.Email = "" then [] else [⟨u.Email, u.EmailVerified, true⟩]) ∧
      (data.Emails.filter (fun e => e.Primary)).length ≤ 1) ∧
    (∀ (apiHost : String) (code : Int) (user : twitchUser) (rest : List twitchUser)
        (data : UserProvidedData),
      twitchProvider.GetUserData apiHost (.ok ⟨code, .ok ⟨user :: rest⟩⟩) = .ok data →
      data.Emails = (if user.Email = "" then [] else [⟨user.Email, true, true⟩]) ∧
      (data.Emails.filter (fun e => e.Primary)).length ≤ 1) ∧
    (∀ (apiPath : String) (u : zoomUser) (data : UserProvidedData),
      zoomProvider.GetUserData apiPath (.ok u) = .ok data →
      data.Emails = (if u.Email = "" then []
        else [⟨u.Email, decide (u.LoginType ≠ "100" ∨ u.EmailVerified ≠ 0), true⟩]) ∧
      (data.Emails.filter (fun e => e.Primary)).length ≤ 1) := by
  refine ⟨?_, ?_, ?_⟩
  · intro host raw u data hu hd
    simp only [keycloakProvider.GetUserData, hu, Except.ok.injEq] at hd
    subst hd
    by_cases he : u.Email = "" <;> simp [he]
  · intro apiHost code user rest data hd
    simp only [twitchProvider.GetUserData] at hd
    split at hd
    · cases hd
    · simp only [Except.ok.injEq] at hd
      subst hd
      by_cases he : user.Email = "" <;> simp [he]
  · intro apiPath u data hd
    simp only [zoomProvider.GetUserData, Except.ok.injEq] at hd
    subst hd
    by_cases he : u.Email = ""
    · simp [he]
    · by_cases hv : u.LoginType ≠ "100" ∨ u.EmailVerified ≠ 0 <;> simp [he, hv]

/-- C16 at concrete inputs: the sample Keycloak object, Twitch user and Zoom
user each yield one primary email. -/
theorem adapters_emit_at_most_one_primary_email_witness :
    (∃ data, keycloakProvider.GetUserData "https://kc.example.com" (.ok sampleKeycloakClaims)
        = .ok data ∧ data.Emails = [⟨"ada@example.com", false, true⟩]) ∧
    (∃ data, twitchProvider.GetUserData "https://api.twitch.tv"
        (.ok ⟨200, .ok ⟨[sampleTwitchUser]⟩⟩) = .ok data ∧
      data.Emails = [⟨"ada@example.com", true, true⟩]) ∧
    (∃ data, zoomProvider.GetUserData "https://api.zoom.us/v2" (.ok sampleZoomUser) = .ok data ∧
      data.Emails = [⟨"ada@example.com", false, true⟩]) :=
  ⟨⟨_, rfl, (adapters_emit_at_most_one_primary_email.1 "https://kc.example.com"
      sampleKeycloakClaims _ _ rfl rfl).1⟩,
   ⟨_, rfl, (adapters_emit_at_most_one_primary_email.2.1 "https://api.twitch.tv" 200
      sampleTwitchUser [] _ rfl).1⟩,
   ⟨_, rfl, (adapters_emit_at_most_one_primary_email.2.2 "https://api.zoom.us/v2"
      sampleZoomUser _ rfl).1⟩⟩

/-- C17: for every decoded Vonage response, `SendSms` looks at the first
message only: with no messages it returns the empty id and the error
"vonage error: Internal Error"; when the first message has status "0" it returns
that message's id and no error; with any other status it returns that message's
id and an error that names the error text and the status. -/
theorem vonage_outcome (resp : VonageResponse) :
    (resp.Messages = [] →
      VonageProvider.SendSms (.ok resp) = ("", some (.plain "vonage error: Internal Error"))) ∧
    (∀ (first : VonageResponseMessage) (rest : List VonageResponseMessage),
      resp.Messages = first :: rest →
      (first.Status = "0" → VonageProvider.SendSms (.ok resp) = (first.MessageID, none)) ∧
      (first.Status ≠ "0" →
        VonageProvider.SendSms (.ok resp) =
          (first.MessageID,
            some (.plain ("vonage error: " ++ first.ErrorText ++ " (status: " ++ first.Status ++
              ") for message " ++ first.MessageID))))) := by
  refine ⟨fun h => ?_, fun first rest h => ⟨fun hs => ?_, fun hs => ?_⟩⟩
  · simp [VonageProvider.SendSms, h]
  · simp [VonageProvider.SendSms, h, hs]
  · simp [VonageProvider.SendSms, h, hs]

/-- C17 at a concrete input: a response of two messages, the first rejected with
status "2", the second accepted. -/
theorem vonage_outcome_witness :
    VonageProvider.SendSms
        (.ok ⟨[⟨"m-1", "2", "Missing params"⟩, ⟨"m-2", "0", ""⟩]⟩) =
      ("m-1", some (.plain "vonage error: Missing params (status: 2) for message m-1")) :=
  ((vonage_outcome ⟨[⟨"m-1", "2", "Missing params"⟩, ⟨"m-2", "0", ""⟩]⟩).2
    ⟨"m-1", "2", "Missing params"⟩ [⟨"m-2", "0", ""⟩] rfl).2 (by decide)

/-! ## Wallet sign-in validation -/

/-- The model of the validation pipeline gives the outcomes `web3_test.go`
asserts: the two happy paths, and each of the rejections. -/
theorem validateSignInMessage_agrees_with_tests :
    validateSignInMessage testAllowed true (testIssuedAt + 599 * second) testFullMessage =
      .ok { Emails := [], Metadata := some { Subject := testFullMessage.address } } ∧
    validateSignInMessage testAllowed true (1747407719 * second) testLocalhostMessage =
      .ok { Emails := [], Metadata := some { Subject := testLocalhostMessage.address } } ∧
    validateSignInMessage testAllowed true (testIssuedAt + 599 * second) testMinimalMessage =
      .ok { Emails := [], Metadata := some { Subject := testMinimalMessage.address } } ∧
    validateSignInMessage testAllowed true testIssuedAt testHttpMessage =
      .error (invalidGrant "Signed Solana message is using URI which does not use HTTPS") ∧
    validateSignInMessage testAllowed true testIssuedAt testNotAllowedMessage =
      .error (invalidGrant "Signed Solana message is using URI which is not allowed on this server, message was signed for another app") ∧
    validateSignInMessage testAllowed true testIssuedAt testInvalidDomainMessage =
      .error (invalidGrant "Signed Solana message is using a Domain that does not match the one in URI which is not allowed on this server") ∧
    validateSignInMessage testAllowed true (testIssuedAt + 59 * second) testNotBeforeMessage =
      .error (invalidGrant "Signed Solana message becomes valid in the future") ∧
    validateSignInMessage testAllowed true (testIssuedAt + 601 * second) testFullMessage =
      .error (invalidGrant "Signed Solana message is expired") ∧
    validateSignInMessage testAllowed true (testIssuedAt - 601 * second) testMinimalMessage =
      .error (invalidGrant "Solana message was issued too far in the future") ∧
    validateSignInMessage testAllowed true (testIssuedAt + 601 * second)
        { testMinimalMessage with notBefore := some testIssuedAt } =
      .error (invalidGrant "Solana message was issued too long ago") ∧
    validateSignInMessage testAllowed false testIssuedAt testFullMessage =
      .error (invalidGrant "Signature does not match address in message") := by
  refine ⟨?_, ?_, ?_, ?_, ?_, ?_, ?_, ?_, ?_, ?_, ?_⟩ <;> rfl

/-- C18: the three URI rules are reported in a fixed order, first failure only.
A message whose URI is not https on a host other than localhost is rejected
with the HTTPS message whatever else is wrong with it; one that passes that rule
with a URI off the allow-list is rejected with the allow-list message whatever
its domain is; one that passes both with a domain other than the URI host is
rejected with the domain message. -/
theorem uri_rules_first_failure_wins (allowed : String → Bool) (signatureVerifies : Bool)
    (now : Time) (m : SignInMessage) :
    (m.uriScheme ≠ "https" ∧ hostnameOf m.uriHost ≠ "localhost" →
      validateSignInMessage allowed signatureVerifies now m =
        .error (invalidGrant "Signed Solana message is using URI which does not use HTTPS")) ∧
    (¬ (m.uriScheme ≠ "https" ∧ hostnameOf m.uriHost ≠ "localhost") → allowed m.uri = false →
      validateSignInMessage allowed signatureVerifies now m =
        .error (invalidGrant "Signed Solana message is using URI which is not allowed on this server, message was signed for another app")) ∧
    (¬ (m.uriScheme ≠ "https" ∧ hostnameOf m.uriHost ≠ "localhost") → allowed m.uri = true →
      m.domain ≠ m.uriHost →
      validateSignInMessage allowed signatureVerifies now m =
        .error (invalidGrant "Signed Solana message is using a Domain that does not match the one in URI which is not allowed on this server")) := by
  refine ⟨fun h1 => ?_, fun h1 h2 => ?_, fun h1 h2 h3 => ?_⟩
  · unfold validateSignInMessage
    rw [if_pos h1]
  · unfold validateSignInMessage
    rw [if_neg h1, if_pos h2]
  · unfold validateSignInMessage
    have h2' : ¬ (allowed m.uri = false) := by simp [h2]
    rw [if_neg h1, if_neg h2', if_pos h3]

/-- C18 at a concrete input: a message that breaks all three rules at once is
rejected with the message of the first. -/
theorem uri_rules_first_failure_wins_witness :
    validateSignInMessage testAllowed true testIssuedAt testAllBrokenMessage =
      .error (invalidGrant "Signed Solana message is using URI which does not use HTTPS") :=
  (uri_rules_first_failure_wins testAllowed true testIssuedAt testAllBrokenMessage).1
    (by decide)

/-- The pipeline past the three URI rules. -/
theorem validateSignInMessage_past_uri_rules (allowed : String → Bool)
    (signatureVerifies : Bool) (now : Time) (m : SignInMessage)
    (h1 : ¬ (m.uriScheme ≠ "https" ∧ hostnameOf m.uriHost ≠ "localhost"))
    (h2 : allowed m.uri = true) (h3 : m.domain = m.uriHost) :
    validateSignInMessage allowed signatureVerifies now m =
      if (match m.notBefore with | some nb => decide (now < nb) | none => false) = true then
        .error (invalidGrant "Signed Solana message becomes valid in the future")
      else if (match m.expirationTime with
          | some exp => decide (now > exp) | none => false) = true then
        .error (invalidGrant "Signed Solana message is expired")
      else if m.issuedAt > now + tenMinutes then
        .error (invalidGrant "Solana message was issued too far in the future")
      else if now > m.issuedAt + tenMinutes then
        .error (invalidGrant "Solana message was issued too long ago")
      else if signatureVerifies = false then
        .error (invalidGrant "Signature does not match address in message")
      else
        .ok { Emails := [], Metadata := some { Subject := m.address } } := by
  unfold validateSignInMessage
  have h2' : ¬ (allowed m.uri = false) := by simp [h2]
  have h3' : ¬ (m.domain ≠ m.uriHost) := by simp [h3]
  rw [if_neg h1, if_neg h2', if_neg h3']

/-- C19 (as stated, refuted): a message that passes the URI and domain rules
and whose `notBefore` lies after its `expirationTime`, verified at a time
between the two, so that `now > expirationTime`, is not rejected with
"Signed Solana message is expired": the `notBefore` check comes first and the
rejection is "Signed Solana message becomes valid in the future". -/
theorem expired_message_reported_as_not_yet_valid :
    testInvertedWindowMessage.expirationTime = some (testIssuedAt + 60 * second) ∧
    testIssuedAt + 120 * second > testIssuedAt + 60 * second ∧
    validateSignInMessage testAllowed true (testIssuedAt + 120 * second)
        testInvertedWindowMessage =
      .error (invalidGrant "Signed Solana message becomes valid in the future") ∧
    validateSignInMessage testAllowed true (testIssuedAt + 120 * second)
        testInvertedWindowMessage ≠
      .error (invalidGrant "Signed Solana message is expired") := by
  refine ⟨rfl, by decide, rfl, ?_⟩
  intro h
  have h2 : (Except.error (invalidGrant "Signed Solana message becomes valid in the future") :
      Except OAuthError UserProvidedData) =
      .error (invalidGrant "Signed Solana message is expired") := h
  have h3 := congrArg (fun x : Except OAuthError UserProvidedData =>
    match x with
    | .error e => e.errorDescription.data.get? 22
    | .ok _ => none) h2
  simp [invalidGrant] at h3

/-- C19 (amended): for every wallet message that passes the URI and domain
rules, verification at time `now` is rejected with "Signed Solana message
becomes valid in the future" whenever `notBefore` is present and
`now < notBefore`, and with "Signed Solana message is expired" whenever
`expirationTime` is present, `now > expirationTime` and the `notBefore` check
does not reject (`notBefore` is absent or not after `now`), whatever `issuedAt`
is; and a message with a valid signature is accepted at every time that is not
before `notBefore`, not after `expirationTime` and within ten minutes of
`issuedAt`. -/
theorem notBefore_and_expiration (allowed : String → Bool) (signatureVerifies : Bool)
    (now : Time) (m : SignInMessage)
    (h1 : ¬ (m.uriScheme ≠ "https" ∧ hostnameOf m.uriHost ≠ "localhost"))
    (h2 : allowed m.uri = true) (h3 : m.domain = m.uriHost) :
    (∀ nb : Time, m.notBefore = some nb → now < nb →
      validateSignInMessage allowed signatureVerifies now m =
        .error (invalidGrant "Signed Solana message becomes valid in the future")) ∧
    (∀ exp : Time, m.expirationTime = some exp → now > exp →
      (∀ nb : Time, m.notBefore = some nb → nb ≤ now) →
      validateSignInMessage allowed signatureVerifies now m =
        .error (invalidGrant "Signed Solana message is expired")) ∧
    (signatureVerifies = true →
      (∀ nb : Time, m.notBefore = some nb → nb ≤ now) →
      (∀ exp : Time, m.expirationTime = some exp → now ≤ exp) →
      m.issuedAt ≤ now + tenMinutes → now ≤ m.issuedAt + tenMinutes →
      validateSignInMessage allowed signatureVerifies now m =
        .ok { Emails := [], Metadata := some { Subject := m.address } }) := by
  rw [validateSignInMessage_past_uri_rules allowed signatureVerifies now m h1 h2 h3]
  refine ⟨fun nb hnb hlt => ?_, fun exp hexp hgt hinv => ?_, fun hsig hnb hexp hi1 hi2 => ?_⟩
  · simp [hnb, hlt]
  · have hnot : (match m.notBefore with | some nb => decide (now < nb) | none => false) = false := by
      cases hnb : m.notBefore with
      | none => rfl
      | some nb =>
        have := hinv nb hnb
        simp only [decide_eq_false_iff_not, not_lt]
        linarith
    have hexpired : (match m.expirationTime with
        | some exp => decide (now > exp) | none => false) = true := by
      simp [hexp, hgt]
    rw [hnot, hexpired]
    simp
  · have hnot : (match m.notBefore with | some nb => decide (now < nb) | none => false) = false := by
      cases hnb' : m.notBefore with
      | none => rfl
      | some nb =>
        have := hnb nb hnb'
        simp only [decide_eq_false_iff_not, not_lt]
        linarith
    have hnexp : (match m.expirationTime with
        | some exp => decide (now > exp) | none => false) = false := by
      cases hexp' : m.expirationTime with
      | none => rfl
      | some exp =>
        have := hexp exp hexp'
        simp only [decide_eq_false_iff_not, not_lt, gt_iff_lt]
        linarith
    have hi1' : ¬ (m.issuedAt > now + tenMinutes) := by linarith
    have hi2' : ¬ (now > m.issuedAt + tenMinutes) := by linarith
    rw [hnot, hnexp, if_neg hi1', if_neg hi2']
    simp [hsig]

/-- C19 (amended) at a concrete input: the full message of the tests one second
after its expiration time, and so more than ten minutes after it was issued. -/
theorem notBefore_and_expiration_witness :
    validateSignInMessage testAllowed true (testIssuedAt + 601 * second) testFullMessage =
      .error (invalidGrant "Signed Solana message is expired") :=
  (notBefore_and_expiration testAllowed true (testIssuedAt + 601 * second) testFullMessage
    (by decide) rfl rfl).2.1 (testIssuedAt + 600 * second) rfl (by decide)
    (fun nb hnb => by
      have h : nb = testIssuedAt := by
        simpa [testFullMessage] using hnb.symm
      rw [h]; decide)

/-- C20: for every wallet message that passes the URI, domain, `notBefore` and
expiration checks: if `issuedAt > now + 10 minutes` it is rejected with "Solana
message was issued too far in the future"; if `now > issuedAt + 10 minutes` it
is rejected with "Solana message was issued too long ago"; and both bounds are
exclusive: with `issuedAt` at most ten minutes from `now`, in particular exactly
ten minutes before or after it, this rule does not reject, and the outcome is
the one of the signature check. -/
theorem issuedAt_window (allowed : String → Bool) (signatureVerifies : Bool)
    (now : Time) (m : SignInMessage)
    (h1 : ¬ (m.uriScheme ≠ "https" ∧ hostnameOf m.uriHost ≠ "localhost"))
    (h2 : allowed m.uri = true) (h3 : m.domain = m.uriHost)
    (hnb : ∀ nb : Time, m.notBefore = some nb → ¬ now < nb)
    (hexp : ∀ exp : Time, m.expirationTime = some exp → ¬ now > exp) :
    tenMinutes = 10 * 60 * 1000000000 ∧
    (m.issuedAt > now + tenMinutes →
      validateSignInMessage allowed signatureVerifies now m =
        .error (invalidGrant "Solana message was issued too far in the future")) ∧
    (now > m.issuedAt + tenMinutes →
      validateSignInMessage allowed signatureVerifies now m =
        .error (invalidGrant "Solana message was issued too long ago")) ∧
    (m.issuedAt ≤ now + tenMinutes → now ≤ m.issuedAt + tenMinutes →
      validateSignInMessage allowed signatureVerifies now m =
        if signatureVerifies = false then
          .error (invalidGrant "Signature does not match address in message")
        else .ok { Emails := [], Metadata := some { Subject := m.address } }) ∧
    (m.issuedAt = now + tenMinutes ∨ now = m.issuedAt + tenMinutes →
      validateSignInMessage allowed signatureVerifies now m =
        if signatureVerifies = false then
          .error (invalidGrant "Signature does not match address in message")
        else .ok { Emails := [], Metadata := some { Subject := m.address } }) := by
  have hnot : (match m.notBefore with | some nb => decide (now < nb) | none => false) = false := by
    cases hnb' : m.notBefore with
    | none => rfl
    | some nb => simpa using hnb nb hnb'
  have hnexp : (match m.expirationTime with
      | some exp => decide (now > exp) | none => false) = false := by
    cases hexp' : m.expirationTime with
    | none => rfl
    | some exp => simpa using hexp exp hexp'
  have hten : tenMinutes = 10 * 60 * 1000000000 := rfl
  have hin : m.issuedAt ≤ now + tenMinutes → now ≤ m.issuedAt + tenMinutes →
      validateSignInMessage allowed signatureVerifies now m =
        if signatureVerifies = false then
          .error (invalidGrant "Signature does not match address in message")
        else .ok { Emails := [], Metadata := some { Subject := m.address } } := by
    intro hi1 hi2
    have hi1' : ¬ (m.issuedAt > now + tenMinutes) := by linarith
    have hi2' : ¬ (now > m.issuedAt + tenMinutes) := by linarith
    rw [validateSignInMessage_past_uri_rules allowed signatureVerifies now m h1 h2 h3,
      hnot, hnexp, if_neg hi1', if_neg hi2']
    simp
  refine ⟨hten, fun hfar => ?_, fun hlong => ?_, hin, fun hb => ?_⟩
  · rw [validateSignInMessage_past_uri_rules allowed signatureVerifies now m h1 h2 h3,
      hnot, hnexp, if_pos hfar]
    simp
  · have hfar : ¬ (m.issuedAt > now + tenMinutes) := by
      rw [hten] at hlong ⊢
      linarith
    rw [validateSignInMessage_past_uri_rules allowed signatureVerifies now m h1 h2 h3,
      hnot, hnexp, if_neg hfar, if_pos hlong]
    simp
  · rcases hb with hb | hb
    · exact hin (by linarith) (by rw [hten] at hb ⊢; linarith)
    · exact hin (by rw [hten] at hb ⊢; linarith) (by linarith)

/-- C20 at a concrete input: the minimal message of the tests exactly ten
minutes after it was issued is accepted. -/
theorem issuedAt_window_witness :
    validateSignInMessage testAllowed true (testIssuedAt + tenMinutes) testMinimalMessage =
      .ok { Emails := [], Metadata := some { Subject := testMinimalMessage.address } } :=
  (issuedAt_window testAllowed true (testIssuedAt + tenMinutes) testMinimalMessage
    (by decide) rfl rfl (fun nb hnb => by simp [testMinimalMessage] at hnb)
    (fun exp hexp => by simp [testMinimalMessage] at hexp)).2.2.2.2 (Or.inr rfl)

/-! ## Further claims on the controller -/

/-- C25: when `DetermineAccountLinking` fails inside the controller's
transaction, `triggerBeforeUserCreatedExternal` returns that error, as the
transaction hands it on after rolling back, and no later step runs:
`DisableSignup` is not evaluated, `ToUserModel` is not called and the hook is not
invoked. -/
theorem linking_failure_propagates (a : API) (r : Request) (conn : Connection)
    (userData : UserProvidedData) (providerType : String) (tx : Connection) (md : Claims)
    (e : Err)
    (hen : a.hooksEnabled = true) (htx : conn.TX = none)
    (hb : a.storage.beginTx a.db = .ok tx) (hm : userData.Metadata = some md)
    (hl : a.DetermineAccountLinking tx a.config userData.Emails (a.requestAud r) providerType
      md.Subject = .error e) :
    a.triggerBeforeUserCreatedExternal r conn userData providerType =
      { ret := .err e, state := (),
        trace := [.transaction a.db,
          .determineAccountLinking tx userData.Emails (a.requestAud r) providerType md.Subject,
          .rollback tx] } := by
  simp [API.triggerBeforeUserCreatedExternal, checkTX, hen, htx, API.linkingTransaction,
    Connection.Transaction, API.linkingFn, hb, hm, hl]

/-- C25 at a concrete input: a linking engine that fails with a storage
error. -/
theorem linking_failure_propagates_witness :
    { sampleAPI true false .CreateAccount .panic with
        DetermineAccountLinking := fun _ _ _ _ _ _ => .error (.plain "connection reset")
      }.triggerBeforeUserCreatedExternal sampleRequest idleConn sampleUserData "google" =
      { ret := .err (.plain "connection reset"), state := (),
        trace := [.transaction idleConn,
          .determineAccountLinking { handle := 0, TX := some 1 } sampleUserData.Emails
            "authenticated" "google" "sub-1",
          .rollback { handle := 0, TX := some 1 }] } :=
  linking_failure_propagates
    { sampleAPI true false .CreateAccount .panic with
        DetermineAccountLinking := fun _ _ _ _ _ _ => .error (.plain "connection reset") }
    sampleRequest idleConn sampleUserData "google" { handle := 0, TX := some 1 }
    { Subject := "sub-1" } (.plain "connection reset") rfl rfl rfl rfl rfl

/-- C26: when the before-user-created hook is not enabled, both
`triggerBeforeUserCreated` and `triggerBeforeUserCreatedExternal` return nil for
every input, whatever `conn.TX` and `DisableSignup` are, and take no step: no
transaction is opened, the linking decision is not run, no user is built and the
hook is not invoked. -/
theorem disabled_hook_returns_nil (a : API) (r : Request) (conn : Connection) (user : User)
    (userData : UserProvidedData) (providerType : String) (hen : a.hooksEnabled = false) :
    a.triggerBeforeUserCreated r conn user = { ret := .nil, state := (), trace := [] } ∧
    a.triggerBeforeUserCreatedExternal r conn userData providerType =
      { ret := .nil, state := (), trace := [] } := by
  simp [API.triggerBeforeUserCreated, API.triggerBeforeUserCreatedExternal, hen]

/-- C26 at a concrete input: hook disabled, connection inside a transaction,
signups disabled, no metadata. -/
theorem disabled_hook_returns_nil_witness :
    (sampleAPI false true .CreateAccount .panic).triggerBeforeUserCreated
        sampleRequest busyConn sampleUser = { ret := .nil, state := (), trace := [] } ∧
    (sampleAPI false true .CreateAccount .panic).triggerBeforeUserCreatedExternal
        sampleRequest busyConn { Emails := [], Metadata := none } "google" =
      { ret := .nil, state := (), trace := [] } :=
  disabled_hook_returns_nil (sampleAPI false true .CreateAccount .panic) sampleRequest busyConn
    sampleUser { Emails := [], Metadata := none } "google" rfl

/-- C29: with the hook enabled and no open transaction on `conn`, a call with
non-nil `Metadata` never faults in the controller (it returns nil or an error as
long as the hook manager itself does not fault), whereas a call with nil
`Metadata` gets past the guard on `identityData`, opens the linking transaction
and faults on `userData.Metadata.Subject` before the linking engine is
called. -/
theorem external_faults_only_on_nil_metadata (a : API) (r : Request) (conn : Connection)
    (userData : UserProvidedData) (providerType : String)
    (hen : a.hooksEnabled = true) (htx : conn.TX = none) :
    (∀ md : Claims, userData.Metadata = some md →
      (∀ (c : Connection) (r' : Request) (req : BeforeUserCreatedInput),
        a.InvokeHook c r' req ≠ .panic) →
      (a.triggerBeforeUserCreatedExternal r conn userData providerType).ret ≠ .panic) ∧
    (userData.Metadata = none → ∀ tx : Connection, a.storage.beginTx a.db = .ok tx →
      a.triggerBeforeUserCreatedExternal r conn userData providerType =
        { ret := .panic, state := (), trace := [.transaction a.db] }) := by
  constructor
  · intro md hm hhook
    cases hb : a.storage.beginTx a.db with
    | error e =>
      simp [API.triggerBeforeUserCreatedExternal, checkTX, hen, htx, API.linkingTransaction,
        Connection.Transaction, hb]
    | ok tx =>
      cases hl : a.DetermineAccountLinking tx a.config userData.Emails (a.requestAud r)
          providerType md.Subject with
      | error e =>
        simp [API.triggerBeforeUserCreatedExternal, checkTX, hen, htx, API.linkingTransaction,
          Connection.Transaction, API.linkingFn, hb, hm, hl]
      | ok d =>
        cases hc : a.storage.commitTx tx with
        | some e =>
          simp [API.triggerBeforeUserCreatedExternal, checkTX, hen, htx, API.linkingTransaction,
            Connection.Transaction, API.linkingFn, hb, hm, hl, hc]
        | none =>
          have hlink := linkingTransaction_ok a userData (a.requestAud r) providerType tx md d
            hb hm hl hc
          by_cases hd : d.Decision = .CreateAccount
          · by_cases hs : a.config.DisableSignup = true
            · simp [API.triggerBeforeUserCreatedExternal, checkTX, hen, htx, hlink, hd, hs]
            · cases hu : a.ToUserModel
                  { Provider := providerType, Email := d.CandidateEmail.Email,
                    Aud := a.requestAud r, Data := some (a.structsMap md) }
                  (HasPrefix d.LinkingDomain "sso:") with
              | error e =>
                simp [API.triggerBeforeUserCreatedExternal, checkTX, hen, htx, hlink, hd, hs,
                  hm, hu]
              | ok user =>
                simpa [API.triggerBeforeUserCreatedExternal, API.triggerBeforeUserCreated,
                  checkTX, hen, htx, hlink, hd, hs, hm, hu] using hhook _ _ _
          · simp [API.triggerBeforeUserCreatedExternal, checkTX, hen, htx, hlink, hd]
  · intro hm tx hb
    simp [API.triggerBeforeUserCreatedExternal, checkTX, hen, htx, API.linkingTransaction,
      Connection.Transaction, API.linkingFn, hb, hm]

/-- C29 at a concrete input: an assertion without metadata. -/
theorem external_faults_only_on_nil_metadata_witness :
    (sampleAPI true false .CreateAccount .nil).triggerBeforeUserCreatedExternal
        sampleRequest idleConn { Emails := [], Metadata := none } "google" =
      { ret := .panic, state := (), trace := [.transaction idleConn] } :=
  (external_faults_only_on_nil_metadata (sampleAPI true false .CreateAccount .nil) sampleRequest
    idleConn { Emails := [], Metadata := none } "google" rfl rfl).2 rfl
    { handle := 0, TX := some 1 } rfl

/-! ## Truncation of the timeout, and the choice of the host -/

/-- C27: `WithTimeout(d)` stores the quotient of `d` (in nanoseconds) by
1,000,000 truncated toward zero: for `d ≥ 0` the stored value `t` satisfies
`t * 1,000,000 ≤ d < (t + 1) * 1,000,000`, so every `d` shorter than one
millisecond gives 0; for `d ≤ 0` the rounding is upward, `(t - 1) * 1,000,000 <
d ≤ t * 1,000,000`.  The stored value is the one the timeout statement prints. -/
theorem WithTimeout_truncates (o : Dispatcher) (d : Int) :
    (0 ≤ d →
      (WithTimeout d o).hookTimeoutMS * 1000000 ≤ d ∧
      d < ((WithTimeout d o).hookTimeoutMS + 1) * 1000000) ∧
    (0 ≤ d → d < 1000000 → (WithTimeout d o).hookTimeoutMS = 0) ∧
    (d ≤ 0 →
      ((WithTimeout d o).hookTimeoutMS - 1) * 1000000 < d ∧
      d ≤ (WithTimeout d o).hookTimeoutMS * 1000000) ∧
    (WithTimeout d o).q1 =
      "set local statement_timeout TO '" ++ toString (WithTimeout d o).hookTimeoutMS ++ "';" ∧
    (WithTimeout d o).db = o.db := by
  have hval : (WithTimeout d o).hookTimeoutMS = d.tdiv 1000000 := rfl
  refine ⟨fun h => ?_, fun h h' => ?_, fun h => ?_, rfl, rfl⟩
  · rw [hval, Int.tdiv_eq_ediv h (by norm_num)]
    omega
  · rw [hval, Int.tdiv_eq_ediv h (by norm_num)]
    omega
  · have hneg : d.tdiv 1000000 = -((-d).tdiv 1000000) := by
      rw [Int.neg_tdiv]; simp
    rw [hval, hneg, Int.tdiv_eq_ediv (by omega) (by norm_num)]
    omega

/-- C27 at concrete inputs: 2.5 ms and 0.999999 ms. -/
theorem WithTimeout_truncates_witness :
    ((WithTimeout 2500000 sampleDispatcher).hookTimeoutMS * 1000000 ≤ 2500000 ∧
      (2500000 : Int) < ((WithTimeout 2500000 sampleDispatcher).hookTimeoutMS + 1) * 1000000) ∧
    (WithTimeout 999999 sampleDispatcher).hookTimeoutMS = 0 :=
  ⟨(WithTimeout_truncates sampleDispatcher 2500000).1 (by decide),
   (WithTimeout_truncates sampleDispatcher 999999).2.1 (by decide) (by decide)⟩

/-- C28: `chooseHost` always returns: for an empty `base` the result is
"https://" followed by `defaultHost`; for a `base` that ends with '/' it is
`base` without that last character, whatever `defaultHost` is, so only one
trailing slash goes; for any other non-empty `base` it is `base` itself. -/
theorem chooseHost_cases (base defaultHost : String) :
    (base = "" → chooseHost base defaultHost = "https://" ++ defaultHost) ∧
    (∀ rest : String, base = rest ++ "/" → chooseHost base defaultHost = rest) ∧
    (base ≠ "" → (¬ ∃ rest : String, base = rest ++ "/") →
      chooseHost base defaultHost = base) := by
  refine ⟨fun h => ?_, fun rest h => ?_, fun hne hns => ?_⟩
  · simp [chooseHost, h]
  · have hdata : base.data = rest.data ++ ['/'] := by
      rw [h]; simp [String.data_append]
    have hne : base ≠ "" := by
      intro h0
      rw [h0] at hdata
      have := congrArg List.length hdata
      simp at this
    have hlast : base.data.getLast? = some '/' := by
      rw [hdata, List.getLast?_concat]
    unfold chooseHost
    rw [if_neg hne, if_pos hlast, hdata, List.dropLast_concat]
  · have hlast : ¬ (base.data.getLast? = some '/') := by
      intro hl
      apply hns
      refine ⟨String.mk base.data.dropLast, ?_⟩
      apply String.ext
      have := List.dropLast_append_getLast? (l := base.data) '/' (by simp [hl])
      simp [String.data_append, this]
    unfold chooseHost
    rw [if_neg hne, if_neg hlast]

/-- C28 at concrete inputs: the three cases, and a base with two trailing
slashes. -/
theorem chooseHost_cases_witness :
    chooseHost "" "api.zoom.us" = "https://api.zoom.us" ∧
    chooseHost "https://zoom.example.com/" "api.zoom.us" = "https://zoom.example.com" ∧
    chooseHost "https://zoom.example.com//" "api.zoom.us" = "https://zoom.example.com/" ∧
    chooseHost "https://zoom.example.com" "api.zoom.us" = "https://zoom.example.com" :=
  ⟨(chooseHost_cases "" "api.zoom.us").1 rfl,
   (chooseHost_cases "https://zoom.example.com/" "api.zoom.us").2.1
     "https://zoom.example.com" (by decide),
   (chooseHost_cases "https://zoom.example.com//" "api.zoom.us").2.1
     "https://zoom.example.com/" (by decide),
   (chooseHost_cases "https://zoom.example.com" "api.zoom.us").2.2 (by decide)
     (by
       rintro ⟨rest, h⟩
       have h2 := congrArg (fun x : String => x.data.getLast?) h
       simp [String.data_append] at h2)⟩

/-! ## Typed extraction of the Keycloak claims -/

/-- C30: `keycloakUser.UnmarshalJSON` keeps the whole object in `RawClaims` and
fills each known field only from a claim of the expected JSON type: `Name`,
`Sub` and `Email` take the claim's value when it is a string, `EmailVerified`
when it is a boolean; with any other value, or without the claim, the field
stays as it was, which for the zero user `GetUserData` starts from is the zero
value.  So the adapter reports the email as verified only for a boolean
`email_verified` that is true. -/
theorem UnmarshalJSON_typed_fields (u0 : keycloakUser) (raw : GoMap JSONValue) (host : String) :
    (∃ u : keycloakUser,
      keycloakUser.UnmarshalJSON u0 (.ok raw) = .ok u ∧
      u.RawClaims = raw ∧
      u.Name = (match raw.get "name" with | some (.string v) => v | _ => u0.Name) ∧
      u.Sub = (match raw.get "sub" with | some (.string v) => v | _ => u0.Sub) ∧
      u.Email = (match raw.get "email" with | some (.string v) => v | _ => u0.Email) ∧
      u.EmailVerified =
        (match raw.get "email_verified" with | some (.bool v) => v | _ => u0.EmailVerified)) ∧
    (∃ data : UserProvidedData,
      keycloakProvider.GetUserData host (.ok raw) = .ok data ∧
      data.Emails =
        (if (match raw.get "email" with | some (.string v) => v | _ => "") = "" then []
         else [⟨match raw.get "email" with | some (.string v) => v | _ => "",
                match raw.get "email_verified" with | some (.bool v) => v | _ => false,
                true⟩])) := by
  have key : ∀ u0 : keycloakUser, ∃ u : keycloakUser,
      keycloakUser.UnmarshalJSON u0 (.ok raw) = .ok u ∧
      u.RawClaims = raw ∧
      u.Name = (match raw.get "name" with | some (.string v) => v | _ => u0.Name) ∧
      u.Sub = (match raw.get "sub" with | some (.string v) => v | _ => u0.Sub) ∧
      u.Email = (match raw.get "email" with | some (.string v) => v | _ => u0.Email) ∧
      u.EmailVerified =
        (match raw.get "email_verified" with | some (.bool v) => v | _ => u0.EmailVerified) := by
    intro u0
    refine ⟨_, rfl, ?_⟩
    simp only []
    rcases h1 : raw.get "name" with _ | (_ | _ | _ | v1 | _) <;>
    rcases h2 : raw.get "sub" with _ | (_ | _ | _ | v2 | _) <;>
    rcases h3 : raw.get "email" with _ | (_ | _ | _ | v3 | _) <;>
    rcases h4 : raw.get "email_verified" with _ | (_ | b | _ | _ | _) <;>
    exact ⟨rfl, rfl, rfl, rfl, rfl⟩
  refine ⟨key u0, ?_⟩
  obtain ⟨u, hu, -, -, -, hemail, hver⟩ := key {}
  have hemail' : u.Email = (match raw.get "email" with | some (.string v) => v | _ => "") :=
    hemail
  have hver' : u.EmailVerified =
      (match raw.get "email_verified" with | some (.bool v) => v | _ => false) := hver
  have hg : keycloakProvider.GetUserData host (.ok raw) =
      .ok { Emails := if u.Email ≠ "" then [⟨u.Email, u.EmailVerified, true⟩] else []
            Metadata := some { Issuer := host, Subject := u.Sub, Name := u.Name,
                               Email := u.Email, EmailVerified := u.EmailVerified,
                               CustomClaims := keycloakCustomClaims u.RawClaims,
                               FullName := u.Name, ProviderId := u.Sub } } := by
    simp only [keycloakProvider.GetUserData, hu]
  refine ⟨_, hg, ?_⟩
  rw [← hemail', ← hver']
  by_cases h : u.Email = "" <;> simp [h]

/-! ## The logging middleware -/

/-- Fields added under other keys leave the value of a key alone. -/
theorem get_append_of_ne {V : Type} (l₁ l₂ : List (String × V)) (k : String)
    (h : ∀ e ∈ l₂, e.1 ≠ k) :
    GoMap.get { entries := l₁ ++ l₂ } k = GoMap.get { entries := l₁ } k := by
  unfold GoMap.get
  simp only [List.foldl_append]
  generalize l₁.foldl (fun acc e => if e.1 = k then some e.2 else acc) none = acc
  induction l₂ generalizing acc with
  | nil => rfl
  | cons e l ih =>
    have he : e.1 ≠ k := h e (by simp)
    simp only [List.foldl_cons, if_neg he]
    exact ih (fun e' he' => h e' (by simp [he'])) acc

/-- The entry `NewLogEntry` makes sits at the first free address and carries the
component, the method and the path of the request. -/
theorem NewLogEntry_fields (env : Observability) (w : World) (r : HTTPRequest) :
    (structuredLogger.NewLogEntry env w r).1 = w.logEntries.length ∧
    ((structuredLogger.NewLogEntry env w r).2.logEntries.getD w.logEntries.length
      LogrusEntry.NewEntry).Data.get "component" = some (.string "api") ∧
    ((structuredLogger.NewLogEntry env w r).2.logEntries.getD w.logEntries.length
      LogrusEntry.NewEntry).Data.get "method" = some (.string r.Method) ∧
    ((structuredLogger.NewLogEntry env w r).2.logEntries.getD w.logEntries.length
      LogrusEntry.NewEntry).Data.get "path" = some (.string r.Path) ∧
    ((structuredLogger.NewLogEntry env w r).2.logEntries.getD w.logEntries.length
      LogrusEntry.NewEntry).Data.get "request_id" =
        (if env.GetRequestID r.ctx = "" then none
         else some (.string (env.GetRequestID r.ctx))) := by
  refine ⟨rfl, ?_, ?_, ?_, ?_⟩ <;>
    by_cases h1 : r.Path = "/token" <;> by_cases h2 : env.GetRequestID r.ctx = "" <;>
    simp [structuredLogger.NewLogEntry, LogrusEntry.WithFields, LogrusEntry.NewEntry,
      GoMap.empty, GoMap.set, GoMap.get, h1, h2, List.getD_eq_getElem?_getD]

/-- What `Write` adds to the output: one record, at level info, with the fields
of the entry and the status, the duration and the error code. -/
theorem Write_logged (w : World) (p : Nat) (status bytes : Int) (header : String → String)
    (elapsed : Int) :
    ∃ rec : LogRecord,
      (logEntry.Write w p status bytes header elapsed).logged = w.logged ++ [rec] ∧
      rec.level = "info" ∧ rec.msg = "request completed" ∧
      ∀ k : String, k ≠ "status" → k ≠ "duration" → k ≠ "error_code" →
        rec.fields.get k = (w.logEntries.getD p LogrusEntry.NewEntry).Data.get k := by
  refine ⟨_, rfl, rfl, rfl, fun k h1 h2 h3 => ?_⟩
  simp only [LogrusEntry.WithFields]
  apply get_append_of_ne
  intro e he
  by_cases hc : header "x-sb-error-code" = ""
  · simp [hc] at he
    rcases he with rfl | rfl
    · exact fun h => h1 h.symm
    · exact fun h => h2 h.symm
  · simp [hc, GoMap.set] at he
    rcases he with rfl | rfl | rfl
    · exact fun h => h1 h.symm
    · exact fun h => h2 h.symm
    · exact fun h => h3 h.symm

/-- The model gives what `TestLogger` and `TestExcludeHealthFromLogs` assert:
one record for `POST /path`, with the component, the method, the path and the
request id of the header, and no record for `GET /health`. -/
theorem logging_agrees_with_tests :
    (AddRequestID testObservability (NewStructuredLogger testObservability okHandler)
        emptyWorld testLoggerRequest).1.logged =
      [{ level := "info", msg := "request completed",
         fields := { entries := [("component", .string "api"), ("method", .string "POST"),
                                 ("path", .string "/path"),
                                 ("remote_addr", .string "192.0.2.1"), ("referer", .string ""),
                                 ("request_id", .string "test-request-id"),
                                 ("status", .number "200"), ("duration", .number "1500")] } }] ∧
    (NewStructuredLogger testObservability okHandler emptyWorld testHealthRequest).1.logged =
      [] := by
  constructor <;> rfl

/-- C22: the structured-logger middleware leaves health checks alone: for a
request whose path is exactly "/health" the next handler is run directly on the
same request and nothing else happens, so no log entry is made or written.  For
every other path a log entry is made that carries component "api", the request
method and the request path; the next handler runs on the request that carries
this entry; and one record "request completed" is then written, with the fields
the entry has at that point plus the status and the duration. -/
theorem structured_logger_skips_health (env : Observability) (next : Handler) (w : World)
    (r : HTTPRequest) :
    (r.Path = "/health" → NewStructuredLogger env next w r = next w r) ∧
    (r.Path ≠ "/health" →
      ((structuredLogger.NewLogEntry env w r).2.logEntries.getD w.logEntries.length
        LogrusEntry.NewEntry).Data.get "component" = some (.string "api") ∧
      ((structuredLogger.NewLogEntry env w r).2.logEntries.getD w.logEntries.length
        LogrusEntry.NewEntry).Data.get "method" = some (.string r.Method) ∧
      ((structuredLogger.NewLogEntry env w r).2.logEntries.getD w.logEntries.length
        LogrusEntry.NewEntry).Data.get "path" = some (.string r.Path) ∧
      (NewStructuredLogger env next w r).2 =
        (next (structuredLogger.NewLogEntry env w r).2
          (r.WithContext (r.ctx.WithValue .LogEntryCtxKey
            (.logEntry (some w.logEntries.length))))).2 ∧
      ∃ rec : LogRecord,
        (NewStructuredLogger env next w r).1.logged =
          (next (structuredLogger.NewLogEntry env w r).2
            (r.WithContext (r.ctx.WithValue .LogEntryCtxKey
              (.logEntry (some w.logEntries.length))))).1.logged ++ [rec] ∧
        rec.level = "info" ∧ rec.msg = "request completed" ∧
        (∀ k : String, k ≠ "status" → k ≠ "duration" → k ≠ "error_code" →
          rec.fields.get k =
            ((next (structuredLogger.NewLogEntry env w r).2
              (r.WithContext (r.ctx.WithValue .LogEntryCtxKey
                (.logEntry (some w.logEntries.length))))).1.logEntries.getD
              w.logEntries.length LogrusEntry.NewEntry).Data.get k)) := by
  constructor
  · intro h
    simp [NewStructuredLogger, h]
  · intro h
    obtain ⟨-, hc, hm, hp, -⟩ := NewLogEntry_fields env w r
    refine ⟨hc, hm, hp, ?_, ?_⟩
    · simp only [NewStructuredLogger, if_neg h, RequestLogger]
      rfl
    · simp only [NewStructuredLogger, if_neg h, RequestLogger]
      exact Write_logged _ _ _ _ _ _

/-- C22 at concrete inputs: the health request of the tests goes straight to the
handler, and the request `POST /path` yields an entry with component "api". -/
theorem structured_logger_skips_health_witness :
    NewStructuredLogger testObservability okHandler emptyWorld testHealthRequest =
      okHandler emptyWorld testHealthRequest ∧
    ((structuredLogger.NewLogEntry testObservability emptyWorld testLoggerRequest).2.logEntries.getD
      0 LogrusEntry.NewEntry).Data.get "component" = some (.string "api") :=
  ⟨(structured_logger_skips_health testObservability okHandler emptyWorld testHealthRequest).1
      rfl,
   ((structured_logger_skips_health testObservability okHandler emptyWorld
      testLoggerRequest).2 (by decide)).1⟩

/-- C23 (as stated, refuted): with the request-id header configured, a request
that does not carry the header gets the empty request id, and the log entry made
for it has no `request_id` field at all: the one record written lists the
component, method, path, remote address, referer, status and duration only. -/
theorem empty_request_id_is_not_logged :
    testObservability.RequestIDHeader = "X-Request-ID" ∧
    testLoggerRequestNoID.Header "X-Request-ID" = "" ∧
    (AddRequestID testObservability (NewStructuredLogger testObservability okHandler)
        emptyWorld testLoggerRequestNoID).1.logged =
      [{ level := "info", msg := "request completed",
         fields := { entries := [("component", .string "api"), ("method", .string "POST"),
                                 ("path", .string "/path"),
                                 ("remote_addr", .string "192.0.2.1"), ("referer", .string ""),
                                 ("status", .number "200"), ("duration", .number "1500")] } }] ∧
    GoMap.get { entries := [("component", JSONValue.string "api"), ("method", .string "POST"),
                            ("path", .string "/path"),
                            ("remote_addr", .string "192.0.2.1"), ("referer", .string ""),
                            ("status", .number "200"), ("duration", .number "1500")] }
      "request_id" = none := by
  refine ⟨rfl, rfl, rfl, rfl⟩

/-- C23 (amended): when a request-ID header name is configured, `AddRequestID`
runs the next handler on the request whose context carries, as request id, the
value of that header on the incoming request, for every request; and the log
entry made for that request has a `request_id` field equal to that value when
the value is not empty, and no `request_id` field when it is empty. -/
theorem request_id_from_header (env : Observability) (w : World) (r : HTTPRequest)
    (hcfg : env.RequestIDHeader ≠ "")
    (hget : ∀ (ctx : Context) (id : String), env.GetRequestID (env.WithRequestID ctx id) = id) :
    (∀ next : Handler,
      AddRequestID env next w r =
        next w (r.WithContext (env.WithRequestID r.ctx (r.Header env.RequestIDHeader)))) ∧
    env.GetRequestID
      (r.WithContext (env.WithRequestID r.ctx (r.Header env.RequestIDHeader))).ctx =
        r.Header env.RequestIDHeader ∧
    ((structuredLogger.NewLogEntry env w
        (r.WithContext (env.WithRequestID r.ctx (r.Header env.RequestIDHeader)))).2.logEntries.getD
      w.logEntries.length LogrusEntry.NewEntry).Data.get "request_id" =
        (if r.Header env.RequestIDHeader = "" then none
         else some (.string (r.Header env.RequestIDHeader))) := by
  have hctx : env.GetRequestID
      (r.WithContext (env.WithRequestID r.ctx (r.Header env.RequestIDHeader))).ctx =
        r.Header env.RequestIDHeader := hget _ _
  refine ⟨fun next => ?_, hctx, ?_⟩
  · simp [AddRequestID, hcfg]
  · rw [(NewLogEntry_fields env w _).2.2.2.2, hctx]

/-- C23 (amended) at a concrete input: the request of `TestLogger`, whose header
reads "test-request-id". -/
theorem request_id_from_header_witness :
    sampleGetRequestID
      (testLoggerRequest.WithContext
        (sampleWithRequestID testLoggerRequest.ctx "test-request-id")).ctx =
        "test-request-id" ∧
    ((structuredLogger.NewLogEntry testObservability emptyWorld
        (testLoggerRequest.WithContext
          (sampleWithRequestID testLoggerRequest.ctx "test-request-id"))).2.logEntries.getD
      0 LogrusEntry.NewEntry).Data.get "request_id" = some (.string "test-request-id") :=
  ⟨(request_id_from_header testObservability emptyWorld testLoggerRequest (by decide)
      (fun _ _ => rfl)).2.1,
   (request_id_from_header testObservability emptyWorld testLoggerRequest (by decide)
      (fun _ _ => rfl)).2.2⟩

/-- C24: for every context and every non-nil `*logEntry` `p`,
`GetLogEntryFromContext(SetLogEntryWithContext(ctx, p))` returns `p` itself and
makes nothing new; and for a context in which no log entry was stored it returns
a non-nil pointer to a `logEntry` made for the occasion, at an address no
earlier entry has. -/
theorem log_entry_context_round_trip (w : World) (ctx : Context) :
    (∀ p : Nat,
      GetLogEntryFromContext w (SetLogEntryWithContext ctx (.logEntry (some p))) =
        (some p, w)) ∧
    (ctx.Value .LogEntryCtxKey = none →
      (GetLogEntryFromContext w ctx).1 = some w.logEntries.length ∧
      (GetLogEntryFromContext w ctx).1 ≠ none ∧
      w.logEntries[w.logEntries.length]? = none ∧
      (GetLogEntryFromContext w ctx).2.logEntries[w.logEntries.length]? =
        some LogrusEntry.NewEntry ∧
      (GetLogEntryFromContext w ctx).2.logged = w.logged) := by
  constructor
  · intro p
    simp [GetLogEntryFromContext, SetLogEntryWithContext, Context.WithValue, Context.Value]
  · intro h
    simp [GetLogEntryFromContext, h]

/-- C24 at a concrete input, as in `TestContext`: a context without a log entry
gives a new entry, not the one made before. -/
theorem log_entry_context_round_trip_witness :
    (GetLogEntryFromContext { logEntries := [LogrusEntry.NewEntry], logged := [] }
      Context.Background).1 = some 1 ∧
    GetLogEntryFromContext { logEntries := [LogrusEntry.NewEntry], logged := [] }
        (SetLogEntryWithContext Context.Background (.logEntry (some 0))) =
      (some 0, { logEntries := [LogrusEntry.NewEntry], logged := [] }) :=
  ⟨((log_entry_context_round_trip { logEntries := [LogrusEntry.NewEntry], logged := [] }
      Context.Background).2 rfl).1,
   (log_entry_context_round_trip { logEntries := [LogrusEntry.NewEntry], logged := [] }
      Context.Background).1 0⟩

/-- The sample Keycloak object gives `email_verified` as the string "true": the
flag stays false and the email is reported unverified, while the raw claims keep
the key. -/
theorem keycloak_string_flag_is_unverified :
    (keycloakProvider.GetUserData "https://kc.example.com" (.ok sampleKeycloakClaims)).map
        (fun data => data.Emails) = .ok [⟨"ada@example.com", false, true⟩] ∧
    sampleKeycloakClaims.get "email_verified" = some (.string "true") := by
  constructor <;> rfl

end Auth
